import Mathlib

/-! A shallow embedding of the repository script
`src/agile-issue-splitter/scripts/render_issue_bundle_markdown.py`.

Generic parsed documents (the values the script receives from `json.loads`)
are modelled by `PyVal`; numbers are restricted to integers, the numeric kind
exercised by the bundle format.  Each Lean definition mirrors the Python
function of the same name; imperative `lines.append` loops become list
concatenation, `ValueError` (the spec calls it `StructuralError`) becomes the
`Except.error` branch of the renderer, and Python builtins used by the script
(`str`, truthiness, `dict.get`, `str.strip`, `json.dumps`) are modelled
explicitly below.  Identifier digits are modelled as the ASCII digits used by
the id convention. -/

inductive PyVal where
  | none
  | bool (b : Bool)
  | int (n : Int)
  | str (s : String)
  | list (xs : List PyVal)
  | dict (kvs : List (String × PyVal))

/-- Association lists model Python dicts (keys are unique in any value that
arises from a real Python dict). -/
abbrev Obj := List (String × PyVal)

mutual

def pyBeq : PyVal → PyVal → Bool
  | .none, .none => true
  | .bool a, .bool b => a == b
  | .int a, .int b => a == b
  | .str a, .str b => a == b
  | .list a, .list b => pyBeqL a b
  | .dict a, .dict b => pyBeqD a b
  | _, _ => false

def pyBeqL : List PyVal → List PyVal → Bool
  | [], [] => true
  | x :: xs, y :: ys => pyBeq x y && pyBeqL xs ys
  | _, _ => false

def pyBeqD : Obj → Obj → Bool
  | [], [] => true
  | (k, x) :: xs, (l, y) :: ys => k == l && pyBeq x y && pyBeqD xs ys
  | _, _ => false

end

mutual

theorem pyBeq_iff : ∀ a b : PyVal, pyBeq a b = true ↔ a = b
  | .none, b => by cases b <;> simp [pyBeq]
  | .bool a, b => by cases b <;> simp [pyBeq]
  | .int a, b => by cases b <;> simp [pyBeq]
  | .str a, b => by cases b <;> simp [pyBeq]
  | .list a, b => by
      cases b <;> simp [pyBeq]
      exact pyBeqL_iff a _
  | .dict a, b => by
      cases b <;> simp [pyBeq]
      exact pyBeqD_iff a _

theorem pyBeqL_iff : ∀ a b : List PyVal, pyBeqL a b = true ↔ a = b
  | [], b => by cases b <;> simp [pyBeqL]
  | x :: xs, b => by
      cases b with
      | nil => simp [pyBeqL]
      | cons y ys => simp [pyBeqL, pyBeq_iff x y, pyBeqL_iff xs ys]

theorem pyBeqD_iff : ∀ a b : Obj, pyBeqD a b = true ↔ a = b
  | [], b => by cases b <;> simp [pyBeqD]
  | (k, x) :: xs, b => by
      cases b with
      | nil => simp [pyBeqD]
      | cons p ys =>
        obtain ⟨l, y⟩ := p
        simp [pyBeqD, pyBeq_iff x y, pyBeqD_iff xs ys, and_assoc]

end

instance : DecidableEq PyVal := fun a b => decidable_of_iff _ (pyBeq_iff a b)

/-- Model of Python `d.get(k)` on a dict: the mapped value, or `None` when the
key is absent (Python collapses the two outcomes). -/
def pyGet (d : Obj) (k : String) : PyVal :=
  match d.find? (fun kv => kv.1 == k) with
  | some kv => kv.2
  | Option.none => .none

/-- Model of Python `k in d` on a dict. -/
def hasKeyB (d : Obj) (k : String) : Bool := d.any (fun kv => kv.1 == k)

def isDictB : PyVal → Bool
  | .dict _ => true
  | _ => false

def isListB : PyVal → Bool
  | .list _ => true
  | _ => false

def isStrB : PyVal → Bool
  | .str _ => true
  | _ => false

def isNoneB : PyVal → Bool
  | .none => true
  | _ => false

/-- Model of Python truthiness of a generic value. -/
def pyTruthy : PyVal → Bool
  | .none => false
  | .bool b => b
  | .int n => n != 0
  | .str s => s != ""
  | .list xs => !xs.isEmpty
  | .dict kvs => !kvs.isEmpty

def asDict : PyVal → Obj
  | .dict d => d
  | _ => []

def asList : PyVal → List PyVal
  | .list xs => xs
  | _ => []

/-- Decimal digits of `n`, most significant first, via a fuel bound (the fuel
`n` itself always suffices). -/
def natCharsGo : Nat → Nat → List Char
  | 0, _ => []
  | _ + 1, 0 => []
  | fuel + 1, n + 1 => natCharsGo fuel ((n + 1) / 10) ++ [Nat.digitChar ((n + 1) % 10)]

/-- Model of Python `str` on a nonnegative integer. -/
def natChars (n : Nat) : List Char := if n = 0 then ['0'] else natCharsGo n n

/-- Model of Python `str` on an integer. -/
def intChars : Int → List Char
  | .ofNat n => natChars n
  | .negSucc n => '-' :: natChars (n + 1)

def intStr (i : Int) : String := String.mk (intChars i)

def hexDigits2 (n : Nat) : List Char := [Nat.digitChar (n / 16 % 16), Nat.digitChar (n % 16)]

/-- Escape of one character inside a Python string repr quoted by `q`. -/
def reprEscChar (q : Char) (c : Char) : List Char :=
  if c = '\\' then ['\\', '\\']
  else if c = q then ['\\', q]
  else if c = '\n' then ['\\', 'n']
  else if c = '\r' then ['\\', 'r']
  else if c = '\t' then ['\\', 't']
  else if c.toNat < 32 || c.toNat == 127 then '\\' :: 'x' :: hexDigits2 c.toNat
  else [c]

/-- Model of Python `repr` on a string: single quotes unless the text holds a
single quote and no double quote. -/
def pyStrRepr (s : String) : String :=
  let q : Char := if s.data.contains '\x27' && !s.data.contains '"' then '"' else '\x27'
  String.mk (q :: s.data.flatMap (reprEscChar q) ++ [q])

mutual

/-- Model of Python `repr` on a generic value. -/
def pyRepr : PyVal → String
  | .none => "None"
  | .bool true => "True"
  | .bool false => "False"
  | .int n => intStr n
  | .str s => pyStrRepr s
  | .list xs => "[" ++ String.intercalate ", " (pyReprL xs) ++ "]"
  | .dict kvs => "\x7b" ++ String.intercalate ", " (pyReprD kvs) ++ "\x7d"

def pyReprL : List PyVal → List String
  | [] => []
  | x :: xs => pyRepr x :: pyReprL xs

def pyReprD : Obj → List String
  | [] => []
  | (k, v) :: kvs => (pyStrRepr k ++ ": " ++ pyRepr v) :: pyReprD kvs

end

/-- Model of Python `str` on a generic value (`str` of a string is itself,
containers fall back to `repr`). -/
def pyStr : PyVal → String
  | .str s => s
  | v => pyRepr v

/-- The ASCII whitespace stripped by Python `str.strip`. -/
def isPySpace (c : Char) : Bool :=
  c = ' ' || c = '\t' || c = '\n' || c = '\r' || c = '\x0b' || c = '\x0c'

def pyStripChars (cs : List Char) : List Char :=
  ((cs.dropWhile isPySpace).reverse.dropWhile isPySpace).reverse

/-- Model of Python `str.strip()`. -/
def pyStrip (s : String) : String := String.mk (pyStripChars s.data)

/-- Model of Python `str.rstrip()`. -/
def pyRstrip (s : String) : String :=
  String.mk (s.data.reverse.dropWhile isPySpace).reverse

/-- Model of `str.replace("\n", " ")`. -/
def replaceNlChars (cs : List Char) : List Char :=
  cs.map (fun c => if c = '\n' then ' ' else c)

/-- Model of `str.replace("|", "\\|")`. -/
def escPipes : List Char → List Char
  | [] => []
  | c :: r => if c = '|' then '\\' :: '|' :: escPipes r else c :: escPipes r

def isUA (c : Char) : Bool := 'A' ≤ c && c ≤ 'Z'

def digitsToNat (ds : List Char) : Nat := ds.foldl (fun a c => 10 * a + (c.toNat - 48)) 0

/-- Model of `re.fullmatch(r"([A-Z]+)-(\d+)", value)` together with
`int(num_str)`: the whole string must be one or more uppercase letters, a
hyphen, then one or more digits; the greedy group is necessarily the maximal
leading run of uppercase letters. -/
def parseId (s : String) : Option (String × Nat) :=
  let up := s.data.takeWhile isUA
  let rest := s.data.dropWhile isUA
  match rest with
  | '-' :: ds =>
    if !up.isEmpty && !ds.isEmpty && ds.all Char.isDigit then
      some (String.mk up, digitsToNat ds)
    else Option.none
  | _ => Option.none

/-- Model of `prefix_order.get(p, 99)`. -/
def lookupD (m : List (String × Nat)) (k : String) (d : Nat) : Nat :=
  match m.find? (fun kv => kv.1 == k) with
  | some kv => kv.2
  | Option.none => d

def TYPE_DISPLAY : List (String × String) :=
  [("user_story", "User Story"), ("task", "Task"), ("bug", "Bug")]

def ISSUE_PREFIX_ORDER : List (String × Nat) := [("US", 0), ("TASK", 1), ("BUG", 2)]

instance {ε α : Type} [DecidableEq ε] [DecidableEq α] : DecidableEq (Except ε α) := fun x y =>
  match x, y with
  | .error e, .error f => decidable_of_iff (e = f) (by simp)
  | .error _, .ok _ => isFalse (fun hc => Except.noConfusion hc)
  | .ok _, .error _ => isFalse (fun hc => Except.noConfusion hc)
  | .ok a, .ok b => decidable_of_iff (a = b) (by simp)

/-- Hashability of a value used as a `dict.get` key: Python lists and dicts
are unhashable and make `dict.get` raise `TypeError`; the remaining value
kinds the renderer can meet (`None`, booleans, integers, strings) are
hashable. -/
def hashableB : PyVal → Bool
  | .list _ => false
  | .dict _ => false
  | _ => true

/-- Model of `TYPE_DISPLAY.get(issue_type, issue_type)`.  Python hashes the
key before the lookup, so an unhashable key (a list or a dict) raises
`TypeError`, modelled as the `Except.error` carrying the interpreter message;
a hashable key that is one of the three known strings maps to its display
name, and any other hashable key is not in the table and falls through to the
default, the key itself. -/
def typeDisplayGet (t : PyVal) : Except String PyVal :=
  match t with
  | .list _ => .error "TypeError: unhashable type: \x27list\x27"
  | .dict _ => .error "TypeError: unhashable type: \x27dict\x27"
  | .str s =>
    match TYPE_DISPLAY.find? (fun kv => kv.1 == s) with
    | some kv => .ok (.str kv.2)
    | Option.none => .ok (.str s)
  | v => .ok v

/-- The value `TYPE_DISPLAY.get(t, t)` returns on the non-raising path of
`typeDisplayGet` (a hashable key). -/
def typeDisplayL (t : PyVal) : PyVal :=
  match t with
  | .str s =>
    match TYPE_DISPLAY.find? (fun kv => kv.1 == s) with
    | some kv => .str kv.2
    | Option.none => t
  | _ => t

/-- An issue whose `type` value is hashable, so that `TYPE_DISPLAY.get` does
not raise on it. -/
def typeOkB (i : Obj) : Bool := hashableB (pyGet i "type")

/-- Left-to-right loop over a list whose body may raise: one result is
collected per element until the first error, which aborts the whole loop the
way a Python exception unwinds a `for` loop. -/
def mapExcept {α β : Type} (f : α → Except String β) : List α → Except String (List β)
  | [] => .ok []
  | a :: l =>
    match f a with
    | .error e => .error e
    | .ok b =>
      match mapExcept f l with
      | .error e => .error e
      | .ok bs => .ok (b :: bs)

/-- Embedding of `_id_key` from the source. -/
def _id_key (value : PyVal) (prefix_order : List (String × Nat)) : Nat × Nat × String :=
  match value with
  | .str s =>
    match parseId s with
    | some pn => (lookupD prefix_order pn.1 99, pn.2, s)
    | Option.none => (99, 0, s)
  | v => (99, 0, pyStr v)

/-- Embedding of `_md_cell` from the source. -/
def _md_cell (value : PyVal) : String :=
  match value with
  | .none => "—"
  | v =>
    let base : String :=
      match v with
      | .list xs => String.intercalate ", " ((xs.filter (fun i => !isNoneB i)).map pyStr)
      | _ => pyStr v
    let text := String.mk (pyStripChars (replaceNlChars base.data))
    if text = "" then "—" else String.mk (escPipes text.data)

/-- Embedding of `_format_estimate` from the source. -/
def _format_estimate (estimate : PyVal) : String :=
  match estimate with
  | .dict d =>
    let method := pyGet d "method"
    let value := pyGet d "value"
    if isNoneB method then "—"
    else if method = PyVal.str "unknown" then "unknown"
    else if isNoneB value then pyStr method
    else pyStr method ++ " " ++ pyStr value
  | _ => "—"

/-- Embedding of `_require_object` from the source; `Except.error` models the
raised `ValueError` (the `StructuralError` of the spec). -/
def _require_object (bundle : PyVal) : Except String Obj :=
  match bundle with
  | .dict d =>
    if !hasKeyB d "meta" then .error "missing required top-level key: meta"
    else if !hasKeyB d "epics" then .error "missing required top-level key: epics"
    else if !hasKeyB d "issues" then .error "missing required top-level key: issues"
    else if !isDictB (pyGet d "meta") then .error "\x27meta\x27 must be an object"
    else if !isListB (pyGet d "epics") then .error "\x27epics\x27 must be an array"
    else if !isListB (pyGet d "issues") then .error "\x27issues\x27 must be an array"
    else .ok d
  | _ => .error "top-level JSON must be an object"

example : _id_key (.str "US-12") ISSUE_PREFIX_ORDER = (0, 12, "US-12") := by decide
example : _id_key (.str "XX-5") ISSUE_PREFIX_ORDER = (99, 5, "XX-5") := by decide
example : _id_key (.int 7) ISSUE_PREFIX_ORDER = (99, 0, "7") := by decide
example : _md_cell (.str " a\nb | c ") = "a b \\| c" := by decide
example : _md_cell (.list [.int 1, .none, .str "x"]) = "1, x" := by decide
example : _md_cell (.list []) = "—" := by decide
example : _format_estimate (.dict [("method", .str "points"), ("value", .int 5)]) = "points 5" := by
  decide
example : _format_estimate (.dict [("method", .str "unknown")]) = "unknown" := by decide
example : _format_estimate (.dict []) = "—" := by decide

/-- Lexicographic comparison of character lists, matching Python string
comparison by code point. -/
def charsLe : List Char → List Char → Bool
  | [], _ => true
  | _ :: _, [] => false
  | a :: as, b :: bs => if a < b then true else if b < a then false else charsLe as bs

/-- Lexicographic order on the `(rank, numeric_id, original_string)` triples
produced by `_id_key`, matching Python tuple comparison. -/
def keyLeB (a b : Nat × Nat × String) : Bool :=
  decide (a.1 < b.1) ||
    (a.1 == b.1 &&
      (decide (a.2.1 < b.2.1) || (a.2.1 == b.2.1 && charsLe a.2.2.data b.2.2.data)))

/-- Lexicographic order on the `(prefix_rank, id_key)` pairs used when sorting
children under a user story. -/
def keyLeB4 (a b : Nat × Nat × Nat × String) : Bool :=
  decide (a.1 < b.1) || (a.1 == b.1 && keyLeB a.2 b.2)

def leByKey {α : Type} (f : α → Nat × Nat × String) (a b : α) : Prop :=
  keyLeB (f a) (f b) = true

instance {α : Type} (f : α → Nat × Nat × String) : DecidableRel (leByKey f) := fun a b => by
  unfold leByKey
  infer_instance

/-- Model of Python `sorted(l, key=f)`: an insertion sort with this placement
rule is stable, so it computes the same list as Python's stable sort. -/
def sortByKey {α : Type} (f : α → Nat × Nat × String) (l : List α) : List α :=
  List.insertionSort (leByKey f) l

def leByKey4 {α : Type} (f : α → Nat × Nat × Nat × String) (a b : α) : Prop :=
  keyLeB4 (f a) (f b) = true

instance {α : Type} (f : α → Nat × Nat × Nat × String) : DecidableRel (leByKey4 f) := fun a b => by
  unfold leByKey4
  infer_instance

def sortByKey4 {α : Type} (f : α → Nat × Nat × Nat × String) (l : List α) : List α :=
  List.insertionSort (leByKey4 f) l

def qKey (q : Obj) : Nat × Nat × String := _id_key (pyGet q "id") [("Q", 0)]

def eKey (e : Obj) : Nat × Nat × String := _id_key (pyGet e "id") [("E", 0)]

def issueKey (i : Obj) : Nat × Nat × String := _id_key (pyGet i "id") ISSUE_PREFIX_ORDER

def usKey (i : Obj) : Nat × Nat × String := _id_key (pyGet i "id") [("US", 0)]

/-- Embedding of the child sort key
`(ISSUE_PREFIX_ORDER.get(str(i.get("id")).split("-", 1)[0], 99), _id_key(i.get("id"), ISSUE_PREFIX_ORDER))`. -/
def childKey (i : Obj) : Nat × Nat × Nat × String :=
  let k := issueKey i
  (lookupD ISSUE_PREFIX_ORDER
      (String.mk ((pyStr (pyGet i "id")).data.takeWhile (fun c => c ≠ '-'))) 99,
    k.1, k.2.1, k.2.2)

/-- Embedding of `_render_meta` (the lines the Python function appends). -/
def _render_meta (meta : Obj) : List String :=
  ["## Meta",
   "- **Source:** " ++ _md_cell (pyGet meta "source"),
   "- **Generated:** " ++ _md_cell (pyGet meta "generated_at"),
   "", "## Assumptions"]
  ++ (let assumptions := asList (pyGet meta "assumptions")
      if !assumptions.isEmpty then assumptions.map (fun item => "- " ++ _md_cell item)
      else ["- —"])
  ++ ["", "## Open Questions"]
  ++ (let open_questions := asList (pyGet meta "open_questions")
      if !open_questions.isEmpty then
        (sortByKey qKey ((open_questions.filter isDictB).map asDict)).flatMap (fun q =>
          ["- **" ++ _md_cell (pyGet q "id") ++ "** (" ++ _md_cell (pyGet q "type")
            ++ ", owner: " ++ _md_cell (pyGet q "owner") ++ "): " ++ _md_cell (pyGet q "question")]
          ++ (match pyGet q "context" with
              | .str c => if pyStrip c != "" then ["  - Context: " ++ _md_cell (.str c)] else []
              | _ => []))
      else ["- —"])

/-- Lines of one epic inside the Epics section (each block ends with a blank
line; `_render_epics` pops the final one). -/
def epicLines (epic : Obj) : List String :=
  ["### " ++ _md_cell (pyGet epic "id") ++ ": " ++ _md_cell (pyGet epic "title"),
   "- **Objective:** " ++ _md_cell (pyGet epic "objective"),
   "- **Exit criteria:**"]
  ++ (let ec := asList (pyGet epic "exit_criteria")
      if !ec.isEmpty then ec.map (fun item => "  - " ++ _md_cell item) else ["  - —"])
  ++ (let ng := asList (pyGet epic "non_goals")
      if !ng.isEmpty then "- **Non-goals:**" :: ng.map (fun item => "  - " ++ _md_cell item)
      else [])
  ++ [""]

/-- Overwrite-or-append on an association list: the lookup behaviour of the
Python dict `epic_by_id` after repeated assignments. -/
def setItem (m : List (String × Obj)) (k : String) (v : Obj) : List (String × Obj) :=
  if m.any (fun kv => kv.1 == k) then m.map (fun kv => if kv.1 == k then (k, v) else kv)
  else m ++ [(k, v)]

/-- The `epic_by_id` index built by `_render_epics` while iterating the sorted
epics. -/
def epicById (epics : List PyVal) : List (String × Obj) :=
  (sortByKey eKey ((epics.filter isDictB).map asDict)).foldl
    (fun m epic =>
      match pyGet epic "id" with
      | .str s => setItem m s epic
      | _ => m) []

/-- Embedding of the lines appended by `_render_epics`. -/
def _render_epics (epics : List PyVal) : List String :=
  let epic_dicts := (epics.filter isDictB).map asDict
  if epic_dicts.isEmpty then ["", "## Epics", "- —"]
  else
    let ls := ["", "## Epics"] ++ (sortByKey eKey epic_dicts).flatMap epicLines
    if ls.getLast? == some "" then ls.dropLast else ls

/-- One data row of the Backlog Summary table; the `TYPE_DISPLAY.get` call
raises `TypeError` on an unhashable `type` value. -/
def summaryRowLine (issue : Obj) : Except String String :=
  match typeDisplayGet (pyGet issue "type") with
  | .error e => .error e
  | .ok td => .ok
    ("| " ++ _md_cell (pyGet issue "id")
     ++ " | " ++ _md_cell td
     ++ " | " ++ _md_cell (pyGet issue "priority")
     ++ " | " ++ _md_cell (pyGet issue "status")
     ++ " | " ++ _md_cell (pyGet issue "epic_id")
     ++ " | " ++ _md_cell (pyGet issue "parent_id")
     ++ " | " ++ _md_cell (pyGet issue "workstream")
     ++ " | " ++ _md_cell (pyGet issue "title")
     ++ " | " ++ _md_cell (pyGet issue "blocked_by")
     ++ " |")

/-- The row `summaryRowLine` yields when the issue's `type` is hashable. -/
def summaryRowL (issue : Obj) : String :=
  "| " ++ _md_cell (pyGet issue "id")
  ++ " | " ++ _md_cell (typeDisplayL (pyGet issue "type"))
  ++ " | " ++ _md_cell (pyGet issue "priority")
  ++ " | " ++ _md_cell (pyGet issue "status")
  ++ " | " ++ _md_cell (pyGet issue "epic_id")
  ++ " | " ++ _md_cell (pyGet issue "parent_id")
  ++ " | " ++ _md_cell (pyGet issue "workstream")
  ++ " | " ++ _md_cell (pyGet issue "title")
  ++ " | " ++ _md_cell (pyGet issue "blocked_by")
  ++ " |"

/-- Embedding of `_render_summary_table`: the header lines, then the row
loop, which aborts with the raised `TypeError` at the first issue whose
`type` value is unhashable. -/
def _render_summary_table (issues : List Obj) : Except String (List String) :=
  match mapExcept summaryRowLine issues with
  | .error e => .error e
  | .ok rows => .ok
    (["", "## Backlog Summary", "",
      "| ID | Type | P | Status | Epic | Parent | WS | Title | Blocked by |",
      "|---|---|---|---|---|---|---|---|---|"]
     ++ rows)

/-- The table `_render_summary_table` yields when every issue's `type` is
hashable. -/
def summaryTableL (issues : List Obj) : List String :=
  ["", "## Backlog Summary", "",
   "| ID | Type | P | Status | Epic | Parent | WS | Title | Blocked by |",
   "|---|---|---|---|---|---|---|---|---|"]
  ++ issues.map summaryRowL

/-- Embedding of `_render_issue_common`; the `TYPE_DISPLAY.get` call on the
Type line raises `TypeError` on an unhashable `type` value (the heading
appended before the raise is discarded with the rest of the output when the
exception unwinds). -/
def _render_issue_common (issue : Obj) : Except String (List String) :=
  match typeDisplayGet (pyGet issue "type") with
  | .error e => .error e
  | .ok td => .ok
    ["#### " ++ _md_cell (pyGet issue "id") ++ ": " ++ _md_cell (pyGet issue "title"),
     "- **Type:** " ++ _md_cell td
       ++ "  **Priority:** " ++ _md_cell (pyGet issue "priority")
       ++ "  **Status:** " ++ _md_cell (pyGet issue "status")
       ++ "  **Estimate:** " ++ _md_cell (.str (_format_estimate (pyGet issue "estimate"))),
     "- **Epic:** " ++ _md_cell (pyGet issue "epic_id")
       ++ "  **Parent:** " ++ _md_cell (pyGet issue "parent_id")
       ++ "  **Workstream:** " ++ _md_cell (pyGet issue "workstream"),
     "- **Labels:** " ++ _md_cell (pyGet issue "labels"),
     "- **Blocked by:** " ++ _md_cell (pyGet issue "blocked_by"),
     "",
     "**Description**",
     _md_cell (pyGet issue "description")]

/-- The lines `_render_issue_common` yields when the issue's `type` is
hashable. -/
def issueCommonL (issue : Obj) : List String :=
  ["#### " ++ _md_cell (pyGet issue "id") ++ ": " ++ _md_cell (pyGet issue "title"),
   "- **Type:** " ++ _md_cell (typeDisplayL (pyGet issue "type"))
     ++ "  **Priority:** " ++ _md_cell (pyGet issue "priority")
     ++ "  **Status:** " ++ _md_cell (pyGet issue "status")
     ++ "  **Estimate:** " ++ _md_cell (.str (_format_estimate (pyGet issue "estimate"))),
   "- **Epic:** " ++ _md_cell (pyGet issue "epic_id")
     ++ "  **Parent:** " ++ _md_cell (pyGet issue "parent_id")
     ++ "  **Workstream:** " ++ _md_cell (pyGet issue "workstream"),
   "- **Labels:** " ++ _md_cell (pyGet issue "labels"),
   "- **Blocked by:** " ++ _md_cell (pyGet issue "blocked_by"),
   "",
   "**Description**",
   _md_cell (pyGet issue "description")]

def bulleted (xs : List PyVal) : List String := xs.map (fun item => "- " ++ _md_cell item)

/-- Embedding of `_render_user_story`. -/
def _render_user_story (issue : Obj) : List String :=
  ["", "**Story**", _md_cell (pyGet issue "story"),
   "", "**Value**", _md_cell (pyGet issue "value"),
   "", "**Acceptance Criteria**"]
  ++ (let ac := asList (pyGet issue "acceptance_criteria")
      if !ac.isEmpty then bulleted ac else ["- —"])
  ++ (let dod := asList (pyGet issue "definition_of_done")
      if !dod.isEmpty then ["", "**Definition of Done**"] ++ bulleted dod else [])

/-- Embedding of `_render_task`. -/
def _render_task (issue : Obj) : List String :=
  ["", "**Task Kind**", _md_cell (pyGet issue "task_kind"),
   "", "**Deliverable**", _md_cell (pyGet issue "deliverable"),
   "", "**Verification**", _md_cell (pyGet issue "verification")]
  ++ (let ac := asList (pyGet issue "acceptance_criteria")
      if !ac.isEmpty then ["", "**Acceptance Criteria**"] ++ bulleted ac else [])
  ++ (let dod := asList (pyGet issue "definition_of_done")
      if !dod.isEmpty then ["", "**Definition of Done**"] ++ bulleted dod else [])

/-- Embedding of `_render_bug`. -/
def _render_bug (issue : Obj) : List String :=
  ["", "**Severity**", _md_cell (pyGet issue "severity"),
   "", "**Environment**", _md_cell (pyGet issue "environment"),
   "", "**Steps to Reproduce**"]
  ++ (let steps := asList (pyGet issue "steps_to_reproduce")
      if !steps.isEmpty then bulleted steps else ["- —"])
  ++ ["", "**Expected**", _md_cell (pyGet issue "expected"),
      "", "**Actual**", _md_cell (pyGet issue "actual"),
      "", "**Acceptance Criteria**"]
  ++ (let ac := asList (pyGet issue "acceptance_criteria")
      if !ac.isEmpty then bulleted ac else ["- —"])
  ++ (let dod := asList (pyGet issue "definition_of_done")
      if !dod.isEmpty then ["", "**Definition of Done**"] ++ bulleted dod else [])

/-- Embedding of `_render_issue_details`: the common block (whose
`TYPE_DISPLAY.get` call can raise), the variant block selected by the `type`
tag, then a blank line. -/
def _render_issue_details (issue : Obj) : Except String (List String) :=
  match _render_issue_common issue with
  | .error e => .error e
  | .ok common => .ok
    (common
     ++ (match pyGet issue "type" with
         | .str "user_story" => _render_user_story issue
         | .str "task" => _render_task issue
         | .str "bug" => _render_bug issue
         | _ => [])
     ++ [""])

/-- The lines `_render_issue_details` yields when the issue's `type` is
hashable. -/
def issueDetailL (issue : Obj) : List String :=
  issueCommonL issue
  ++ (match pyGet issue "type" with
      | .str "user_story" => _render_user_story issue
      | .str "task" => _render_task issue
      | .str "bug" => _render_bug issue
      | _ => [])
  ++ [""]

/-- Lookup in the `children_by_parent_id` map built from the sorted issues:
the issues whose `parent_id` is a nonempty string equal to `p`, in sorted
order. -/
def childrenOf (issue_dicts_sorted : List Obj) (p : String) : List Obj :=
  issue_dicts_sorted.filter (fun i =>
    match pyGet i "parent_id" with
    | .str q => q != "" && q == p
    | _ => false)

/-- Model of `i.get("type") == "user_story"`. -/
def typeIsUS (i : Obj) : Bool :=
  match pyGet i "type" with
  | .str s => s == "user_story"
  | _ => false

/-- The grouping key `issue.get("epic_id") if isinstance(issue.get("epic_id"), str) else None`. -/
def epicKeyOf (i : Obj) : Option String :=
  match pyGet i "epic_id" with
  | .str s => some s
  | _ => Option.none

def firstDedupAux : List String → List String → List String
  | _, [] => []
  | seen, a :: l => if a ∈ seen then firstDedupAux seen l else a :: firstDedupAux (a :: seen) l

/-- Deduplication keeping first occurrences: the key order of a Python dict
filled by `setdefault` during one left-to-right pass. -/
def firstDedup (l : List String) : List String := firstDedupAux [] l

/-- The members of the epic group keyed by `eid`, in sorted-issue order. -/
def groupOf (sorted : List Obj) (eid : Option String) : List Obj :=
  sorted.filter (fun i => epicKeyOf i == eid)

/-- The sorted non-`None` epic ids of `epic_groups`. -/
def epicIdsSorted (sorted : List Obj) : List String :=
  sortByKey (fun eid => _id_key (.str eid) [("E", 0)]) (firstDedup (sorted.filterMap epicKeyOf))

/-- The iteration order over epic groups: sorted string ids, then the `None`
bucket when present. -/
def groupKeys (sorted : List Obj) : List (Option String) :=
  (epicIdsSorted sorted).map some
  ++ (if sorted.any (fun i => epicKeyOf i == (Option.none : Option String)) then
        [(Option.none : Option String)]
      else [])

/-- Heading lines of one epic group in the Issue Details section. -/
def epicHeading (epic_by_id : List (String × Obj)) : Option String → List String
  | Option.none => ["", "### No Epic"]
  | some eid =>
    let epic_title :=
      match epic_by_id.find? (fun kv => kv.1 == eid) with
      | some kv => pyGet kv.2 "title"
      | Option.none => PyVal.none
    ["", "### " ++ eid ++ ": " ++ _md_cell epic_title]

/-- Detail block of a user story followed by the blocks of its sorted
children (`children_by_parent_id.get(story_id, [])`, consulted only when the
story id is a string); any block can raise through `TYPE_DISPLAY.get`. -/
def storyBlock (sorted : List Obj) (story : Obj) : Except String (List String) :=
  match _render_issue_details story with
  | .error e => .error e
  | .ok sb =>
    match pyGet story "id" with
    | .str sid =>
      let children := childrenOf sorted sid
      if !children.isEmpty then
        match mapExcept _render_issue_details (sortByKey4 childKey children) with
        | .error e => .error e
        | .ok cls => .ok (sb ++ cls.flatten)
      else .ok sb
    | _ => .ok sb

/-- The lines `storyBlock` yields when every involved `type` is hashable. -/
def storyBlockL (sorted : List Obj) (story : Obj) : List String :=
  issueDetailL story
  ++ (match pyGet story "id" with
      | .str sid =>
        let children := childrenOf sorted sid
        if !children.isEmpty then (sortByKey4 childKey children).flatMap issueDetailL
        else []
      | _ => [])

/-- All lines of one epic group in the Issue Details section. -/
def groupLines (epic_by_id : List (String × Obj)) (sorted : List Obj) (eid : Option String) :
    Except String (List String) :=
  let group := groupOf sorted eid
  let user_stories := group.filter typeIsUS
  let others_top_level := group.filter (fun i => !typeIsUS i && !pyTruthy (pyGet i "parent_id"))
  match mapExcept (storyBlock sorted) (sortByKey usKey user_stories) with
  | .error e => .error e
  | .ok sbs =>
    match mapExcept _render_issue_details others_top_level with
    | .error e => .error e
    | .ok obs => .ok (epicHeading epic_by_id eid ++ sbs.flatten ++ obs.flatten)

/-- The lines `groupLines` yields when every involved `type` is hashable. -/
def groupLinesL (epic_by_id : List (String × Obj)) (sorted : List Obj) (eid : Option String) :
    List String :=
  let group := groupOf sorted eid
  let user_stories := group.filter typeIsUS
  let others_top_level := group.filter (fun i => !typeIsUS i && !pyTruthy (pyGet i "parent_id"))
  epicHeading epic_by_id eid
  ++ (sortByKey usKey user_stories).flatMap (storyBlockL sorted)
  ++ others_top_level.flatMap issueDetailL

/-- The whole Issue Details section. -/
def detailsSection (epic_by_id : List (String × Obj)) (sorted : List Obj) :
    Except String (List String) :=
  match mapExcept (groupLines epic_by_id sorted) (groupKeys sorted) with
  | .error e => .error e
  | .ok gls => .ok (["", "## Issue Details"] ++ gls.flatten)

/-- The lines `detailsSection` yields when every involved `type` is
hashable. -/
def detailsSectionL (epic_by_id : List (String × Obj)) (sorted : List Obj) : List String :=
  ["", "## Issue Details"] ++ (groupKeys sorted).flatMap (groupLinesL epic_by_id sorted)

def pad (lvl : Nat) : List Char := List.replicate (2 * lvl) ' '

/-- Escape of one character inside a JSON string literal, as produced by
`json.dumps(..., ensure_ascii=False)`. -/
def jsonEscChar (c : Char) : List Char :=
  if c = '"' then ['\\', '"']
  else if c = '\\' then ['\\', '\\']
  else if c = '\n' then ['\\', 'n']
  else if c = '\r' then ['\\', 'r']
  else if c = '\t' then ['\\', 't']
  else if c = '\x08' then ['\\', 'b']
  else if c = '\x0c' then ['\\', 'f']
  else if c.toNat < 32 then
    ['\\', 'u', '0', '0', Nat.digitChar (c.toNat / 16 % 16), Nat.digitChar (c.toNat % 16)]
  else [c]

def qstr (s : String) : List Char := '"' :: s.data.flatMap jsonEscChar ++ ['"']

mutual

/-- Model of `json.dumps(v, indent=2, ensure_ascii=False)` at nesting level
`lvl`. -/
def dumpV : Nat → PyVal → List Char
  | _, .none => ['n', 'u', 'l', 'l']
  | _, .bool true => ['t', 'r', 'u', 'e']
  | _, .bool false => ['f', 'a', 'l', 's', 'e']
  | _, .int n => intChars n
  | _, .str s => qstr s
  | _, .list [] => ['[', ']']
  | lvl, .list (x :: xs) =>
    '[' :: '\n' :: (dumpElems (lvl + 1) (x :: xs) ++ '\n' :: (pad lvl ++ [']']))
  | _, .dict [] => ['\x7b', '\x7d']
  | lvl, .dict (kv :: kvs) =>
    '\x7b' :: '\n' :: (dumpMembers (lvl + 1) (kv :: kvs) ++ '\n' :: (pad lvl ++ ['\x7d']))

def dumpElems : Nat → List PyVal → List Char
  | _, [] => []
  | lvl, [x] => pad lvl ++ dumpV lvl x
  | lvl, x :: y :: ys => pad lvl ++ dumpV lvl x ++ ',' :: '\n' :: dumpElems lvl (y :: ys)

def dumpMembers : Nat → Obj → List Char
  | _, [] => []
  | lvl, [(k, v)] => pad lvl ++ (qstr k ++ ':' :: ' ' :: dumpV lvl v)
  | lvl, (k, v) :: kv :: kvs =>
    pad lvl ++ (qstr k ++ ':' :: ' ' :: dumpV lvl v) ++ ',' :: '\n' :: dumpMembers lvl (kv :: kvs)

end

def jsonDumps (v : PyVal) : String := String.mk (dumpV 0 v)

/-- The lines assembled by `render_issue_bundle_markdown` after the shape
check succeeded on the entries `d`, or the `TypeError` raised while building
the summary table or the details (the raised exception discards the lines
appended before it). -/
def renderLines (d : Obj) (include_json : Bool) : Except String (List String) :=
  let meta := asDict (pyGet d "meta")
  let epics := asList (pyGet d "epics")
  let issues := asList (pyGet d "issues")
  let project := match pyGet meta "project" with | .str s => s | _ => "TBD"
  let issue_dicts_sorted := sortByKey issueKey ((issues.filter isDictB).map asDict)
  match _render_summary_table issue_dicts_sorted with
  | .error e => .error e
  | .ok table =>
    match detailsSection (epicById epics) issue_dicts_sorted with
    | .error e => .error e
    | .ok details => .ok
      (["# Issue Bundle — " ++ project, ""]
       ++ _render_meta meta
       ++ _render_epics epics
       ++ table
       ++ details
       ++ (if include_json then
             ["", "## Issue Bundle (JSON)", "", "```json", jsonDumps (.dict d), "```"]
           else []))

/-- The lines `renderLines` yields when every mapping-shaped issue's `type`
is hashable. -/
def renderLinesL (d : Obj) (include_json : Bool) : List String :=
  let meta := asDict (pyGet d "meta")
  let epics := asList (pyGet d "epics")
  let issues := asList (pyGet d "issues")
  let project := match pyGet meta "project" with | .str s => s | _ => "TBD"
  let issue_dicts_sorted := sortByKey issueKey ((issues.filter isDictB).map asDict)
  ["# Issue Bundle — " ++ project, ""]
  ++ _render_meta meta
  ++ _render_epics epics
  ++ summaryTableL issue_dicts_sorted
  ++ detailsSectionL (epicById epics) issue_dicts_sorted
  ++ (if include_json then
        ["", "## Issue Bundle (JSON)", "", "```json", jsonDumps (.dict d), "```"]
      else [])

/-- Embedding of the entry point `render_issue_bundle_markdown`: the raised
`StructuralError` becomes `Except.error`, a `TypeError` raised while the
lines are assembled propagates (uncaught) with its message, and on success
the joined lines are right-stripped and terminated by one newline, as in the
source. -/
def render_issue_bundle_markdown (bundle : PyVal) (include_json : Bool) : Except String String :=
  match _require_object bundle with
  | .error e => .error e
  | .ok d =>
    match renderLines d include_json with
    | .error e => .error e
    | .ok ls => .ok (pyRstrip (String.intercalate "\n" ls) ++ "\n")

theorem charsLe_total : ∀ as bs : List Char, charsLe as bs = true ∨ charsLe bs as = true
  | [], _ => Or.inl rfl
  | _ :: _, [] => Or.inr rfl
  | a :: as, b :: bs => by
    rcases lt_trichotomy a b with h | h | h
    · left; simp [charsLe, h]
    · subst h
      rcases charsLe_total as bs with ih | ih
      · left; simp [charsLe, ih]
      · right; simp [charsLe, ih]
    · right; simp [charsLe, h]

theorem charsLe_trans :
    ∀ as bs cs : List Char, charsLe as bs = true → charsLe bs cs = true → charsLe as cs = true
  | [], _, _ => by intro _ _; rfl
  | a :: as, [], _ => by intro h _; simp [charsLe] at h
  | a :: as, b :: bs, [] => by intro _ h; simp [charsLe] at h
  | a :: as, b :: bs, c :: cs => by
    intro h1 h2
    simp only [charsLe] at h1 h2 ⊢
    rcases lt_trichotomy a b with hab | hab | hab
    · rcases lt_trichotomy b c with hbc | hbc | hbc
      · simp [lt_trans hab hbc]
      · subst hbc; simp [hab]
      · simp [hab, not_lt_of_gt hab] at h1 ⊢
        simp [hbc, not_lt_of_gt hbc] at h2
    · subst hab
      rcases lt_trichotomy a c with hac | hac | hac
      · simp [hac]
      · subst hac
        simp [lt_irrefl] at h1 h2 ⊢
        exact charsLe_trans as bs cs h1 h2
      · simp [hac, not_lt_of_gt hac] at h2
    · simp [hab, not_lt_of_gt hab] at h1

theorem keyLeB_iff (a b : Nat × Nat × String) :
    keyLeB a b = true ↔
      a.1 < b.1 ∨ a.1 = b.1 ∧ (a.2.1 < b.2.1 ∨ a.2.1 = b.2.1 ∧ charsLe a.2.2.data b.2.2.data = true) := by
  simp [keyLeB, Bool.or_eq_true, Bool.and_eq_true, decide_eq_true_eq, beq_iff_eq]

theorem keyLeB_total (a b : Nat × Nat × String) : keyLeB a b = true ∨ keyLeB b a = true := by
  rw [keyLeB_iff, keyLeB_iff]
  rcases lt_trichotomy a.1 b.1 with h1 | h1 | h1
  · exact Or.inl (Or.inl h1)
  · rcases lt_trichotomy a.2.1 b.2.1 with h2 | h2 | h2
    · exact Or.inl (Or.inr ⟨h1, Or.inl h2⟩)
    · rcases charsLe_total a.2.2.data b.2.2.data with h3 | h3
      · exact Or.inl (Or.inr ⟨h1, Or.inr ⟨h2, h3⟩⟩)
      · exact Or.inr (Or.inr ⟨h1.symm, Or.inr ⟨h2.symm, h3⟩⟩)
    · exact Or.inr (Or.inr ⟨h1.symm, Or.inl h2⟩)
  · exact Or.inr (Or.inl h1)

theorem keyLeB_trans (a b c : Nat × Nat × String) :
    keyLeB a b = true → keyLeB b c = true → keyLeB a c = true := by
  rw [keyLeB_iff, keyLeB_iff, keyLeB_iff]
  intro h1 h2
  rcases h1 with h1 | ⟨e1, h1⟩
  · rcases h2 with h2 | ⟨e2, _⟩
    · exact Or.inl (h1.trans h2)
    · exact Or.inl (e2 ▸ h1)
  · rcases h2 with h2 | ⟨e2, h2⟩
    · exact Or.inl (e1 ▸ h2)
    · refine Or.inr ⟨e1.trans e2, ?_⟩
      rcases h1 with g1 | ⟨f1, g1⟩
      · rcases h2 with g2 | ⟨f2, _⟩
        · exact Or.inl (g1.trans g2)
        · exact Or.inl (f2 ▸ g1)
      · rcases h2 with g2 | ⟨f2, g2⟩
        · exact Or.inl (f1 ▸ g2)
        · exact Or.inr ⟨f1.trans f2, charsLe_trans _ _ _ g1 g2⟩

theorem keyLeB4_iff (a b : Nat × Nat × Nat × String) :
    keyLeB4 a b = true ↔ a.1 < b.1 ∨ a.1 = b.1 ∧ keyLeB a.2 b.2 = true := by
  simp [keyLeB4, Bool.or_eq_true, Bool.and_eq_true, decide_eq_true_eq, beq_iff_eq]

theorem keyLeB4_total (a b : Nat × Nat × Nat × String) :
    keyLeB4 a b = true ∨ keyLeB4 b a = true := by
  rw [keyLeB4_iff, keyLeB4_iff]
  rcases lt_trichotomy a.1 b.1 with h1 | h1 | h1
  · exact Or.inl (Or.inl h1)
  · rcases keyLeB_total a.2 b.2 with h2 | h2
    · exact Or.inl (Or.inr ⟨h1, h2⟩)
    · exact Or.inr (Or.inr ⟨h1.symm, h2⟩)
  · exact Or.inr (Or.inl h1)

theorem keyLeB4_trans (a b c : Nat × Nat × Nat × String) :
    keyLeB4 a b = true → keyLeB4 b c = true → keyLeB4 a c = true := by
  rw [keyLeB4_iff, keyLeB4_iff, keyLeB4_iff]
  intro h1 h2
  rcases h1 with h1 | ⟨e1, h1⟩
  · rcases h2 with h2 | ⟨e2, _⟩
    · exact Or.inl (h1.trans h2)
    · exact Or.inl (e2 ▸ h1)
  · rcases h2 with h2 | ⟨e2, h2⟩
    · exact Or.inl (e1 ▸ h2)
    · exact Or.inr ⟨e1.trans e2, keyLeB_trans _ _ _ h1 h2⟩

instance {α : Type} (f : α → Nat × Nat × String) : IsTotal α (leByKey f) :=
  ⟨fun a b => keyLeB_total (f a) (f b)⟩

instance {α : Type} (f : α → Nat × Nat × String) : IsTrans α (leByKey f) :=
  ⟨fun _ _ _ => keyLeB_trans _ _ _⟩

instance {α : Type} (f : α → Nat × Nat × Nat × String) : IsTotal α (leByKey4 f) :=
  ⟨fun a b => keyLeB4_total (f a) (f b)⟩

instance {α : Type} (f : α → Nat × Nat × Nat × String) : IsTrans α (leByKey4 f) :=
  ⟨fun _ _ _ => keyLeB4_trans _ _ _⟩

theorem sortByKey_perm {α : Type} (f : α → Nat × Nat × String) (l : List α) :
    (sortByKey f l).Perm l :=
  List.perm_insertionSort _ l

theorem sortByKey_sorted {α : Type} (f : α → Nat × Nat × String) (l : List α) :
    List.Sorted (leByKey f) (sortByKey f l) :=
  List.sorted_insertionSort _ l

theorem sortByKey_length {α : Type} (f : α → Nat × Nat × String) (l : List α) :
    (sortByKey f l).length = l.length :=
  (sortByKey_perm f l).length_eq

theorem digitChar_toNat {d : Nat} (hd : d < 10) : (Nat.digitChar d).toNat = 48 + d := by
  interval_cases d <;> rfl

theorem digitChar_isDigit {d : Nat} (hd : d < 10) : (Nat.digitChar d).isDigit = true := by
  interval_cases d <;> rfl

theorem natCharsGo_all_digit :
    ∀ fuel n : Nat, ∀ c ∈ natCharsGo fuel n, c.isDigit = true
  | 0, _ => by simp [natCharsGo]
  | _ + 1, 0 => by simp [natCharsGo]
  | fuel + 1, n + 1 => by
    intro c hc
    simp only [natCharsGo, List.mem_append, List.mem_singleton] at hc
    rcases hc with hc | rfl
    · exact natCharsGo_all_digit fuel _ c hc
    · exact digitChar_isDigit (Nat.mod_lt _ (by omega))

theorem natChars_all_digit (n : Nat) : ∀ c ∈ natChars n, c.isDigit = true := by
  unfold natChars
  split
  · simp
  · exact natCharsGo_all_digit n n

theorem natChars_ne_nil (n : Nat) : natChars n ≠ [] := by
  unfold natChars
  split
  · simp
  · rename_i h
    cases n with
    | zero => exact absurd rfl h
    | succ m => simp [natCharsGo]

theorem natCharsGo_foldl (fuel : Nat) :
    ∀ n : Nat, n ≤ fuel → ∀ a : Nat,
      (natCharsGo fuel n).foldl (fun a c => 10 * a + (c.toNat - 48)) a
        = a * 10 ^ (natCharsGo fuel n).length + n := by
  induction fuel with
  | zero =>
    intro n hn a
    interval_cases n
    simp [natCharsGo]
  | succ fuel ih =>
    intro n hn a
    cases n with
    | zero => simp [natCharsGo]
    | succ m =>
      have hdiv : (m + 1) / 10 < m + 1 := Nat.div_lt_self (by omega) (by omega)
      have hle : (m + 1) / 10 ≤ fuel := by omega
      simp only [natCharsGo, List.foldl_append, List.foldl_cons, List.foldl_nil,
        List.length_append, List.length_cons, List.length_nil]
      rw [ih _ hle a, digitChar_toNat (Nat.mod_lt _ (by omega))]
      have hmod := Nat.div_add_mod (m + 1) 10
      have hpow : 10 ^ ((natCharsGo fuel ((m + 1) / 10)).length + 1)
          = 10 ^ (natCharsGo fuel ((m + 1) / 10)).length * 10 := pow_succ 10 _
      set L := (natCharsGo fuel ((m + 1) / 10)).length
      have : 48 + (m + 1) % 10 - 48 = (m + 1) % 10 := by omega
      rw [this, hpow]
      ring_nf
      omega

theorem digitsToNat_natChars (n : Nat) : digitsToNat (natChars n) = n := by
  unfold natChars digitsToNat
  split
  · rename_i h
    subst h
    rfl
  · simpa using natCharsGo_foldl n n le_rfl 0

theorem takeWhile_append_all {α : Type} (p : α → Bool) :
    ∀ l r : List α, (∀ c ∈ l, p c = true) → (∀ c, r.head? = some c → p c = false) →
      (l ++ r).takeWhile p = l ∧ (l ++ r).dropWhile p = r
  | [], r => by
    intro _ hr
    cases r with
    | nil => simp
    | cons c cs =>
      have := hr c rfl
      simp [List.takeWhile, List.dropWhile, this]
  | a :: l, r => by
    intro hl hr
    have ha : p a = true := hl a (by simp)
    have ih := takeWhile_append_all p l r (fun c hc => hl c (by simp [hc])) hr
    simp [List.takeWhile, List.dropWhile, ha, ih.1, ih.2]

theorem typeDisplayGet_eq (t : PyVal) (h : hashableB t = true) :
    typeDisplayGet t = .ok (typeDisplayL t) := by
  cases t with
  | str s =>
    cases h2 : TYPE_DISPLAY.find? (fun kv => kv.1 == s) <;>
      simp [typeDisplayGet, typeDisplayL, h2]
  | list l => simp [hashableB] at h
  | dict kvs => simp [hashableB] at h
  | none => rfl
  | bool b => rfl
  | int n => rfl

theorem mapExcept_ok {α β : Type} (f : α → Except String β) (g : α → β) :
    ∀ l : List α, (∀ x ∈ l, f x = .ok (g x)) → mapExcept f l = .ok (l.map g)
  | [], _ => rfl
  | a :: l, h => by
    have ha := h a (List.mem_cons_self a l)
    have hl := mapExcept_ok f g l (fun x hx => h x (List.mem_cons_of_mem a hx))
    simp only [mapExcept, ha, hl, List.map_cons]

theorem summaryRowLine_ok (issue : Obj) (h : typeOkB issue = true) :
    summaryRowLine issue = .ok (summaryRowL issue) := by
  unfold summaryRowLine summaryRowL
  rw [typeDisplayGet_eq _ h]

theorem _render_summary_table_ok (issues : List Obj) (h : ∀ i ∈ issues, typeOkB i = true) :
    _render_summary_table issues = .ok (summaryTableL issues) := by
  unfold _render_summary_table summaryTableL
  rw [mapExcept_ok summaryRowLine summaryRowL issues (fun i hi => summaryRowLine_ok i (h i hi))]

theorem _render_issue_common_ok (issue : Obj) (h : typeOkB issue = true) :
    _render_issue_common issue = .ok (issueCommonL issue) := by
  unfold _render_issue_common issueCommonL
  rw [typeDisplayGet_eq _ h]

theorem _render_issue_details_ok (issue : Obj) (h : typeOkB issue = true) :
    _render_issue_details issue = .ok (issueDetailL issue) := by
  unfold _render_issue_details issueDetailL
  rw [_render_issue_common_ok issue h]

theorem mem_of_mem_childrenOf {sorted : List Obj} {p : String} {i : Obj}
    (h : i ∈ childrenOf sorted p) : i ∈ sorted :=
  List.mem_of_mem_filter h

theorem mem_of_mem_groupOf {sorted : List Obj} {eid : Option String} {i : Obj}
    (h : i ∈ groupOf sorted eid) : i ∈ sorted :=
  List.mem_of_mem_filter h

theorem sortByKey4_perm {α : Type} (f : α → Nat × Nat × Nat × String) (l : List α) :
    (sortByKey4 f l).Perm l :=
  List.perm_insertionSort _ l

theorem storyBlock_ok (sorted : List Obj) (story : Obj) (hs : typeOkB story = true)
    (hall : ∀ i ∈ sorted, typeOkB i = true) :
    storyBlock sorted story = .ok (storyBlockL sorted story) := by
  simp only [storyBlock, storyBlockL]
  rw [_render_issue_details_ok story hs]
  cases hid : pyGet story "id" <;> dsimp only
  case str sid =>
    have hmem : ∀ i ∈ sortByKey4 childKey (childrenOf sorted sid), typeOkB i = true :=
      fun i hi => hall i (mem_of_mem_childrenOf ((sortByKey4_perm childKey _).mem_iff.mp hi))
    rw [mapExcept_ok _render_issue_details issueDetailL _
      (fun i hi => _render_issue_details_ok i (hmem i hi))]
    by_cases hempty : (childrenOf sorted sid).isEmpty = true
    · simp [hempty]
    · simp only [Bool.not_eq_true] at hempty
      simp only [hempty, Bool.not_false, if_true]
      rfl
  all_goals simp

theorem groupLines_ok (epic_by_id : List (String × Obj)) (sorted : List Obj) (eid : Option String)
    (hall : ∀ i ∈ sorted, typeOkB i = true) :
    groupLines epic_by_id sorted eid = .ok (groupLinesL epic_by_id sorted eid) := by
  have hstories : ∀ s ∈ sortByKey usKey ((groupOf sorted eid).filter typeIsUS),
      storyBlock sorted s = .ok (storyBlockL sorted s) := by
    intro s hsmem
    have hmem : s ∈ sorted :=
      mem_of_mem_groupOf (List.mem_of_mem_filter ((sortByKey_perm usKey _).mem_iff.mp hsmem))
    exact storyBlock_ok sorted s (hall s hmem) hall
  have hothers : ∀ i ∈ (groupOf sorted eid).filter
      (fun i => !typeIsUS i && !pyTruthy (pyGet i "parent_id")),
      _render_issue_details i = .ok (issueDetailL i) := by
    intro i himem
    exact _render_issue_details_ok i (hall i (mem_of_mem_groupOf (List.mem_of_mem_filter himem)))
  simp only [groupLines, groupLinesL]
  rw [mapExcept_ok (storyBlock sorted) (storyBlockL sorted) _ hstories,
    mapExcept_ok _render_issue_details issueDetailL _ hothers]
  rfl

theorem detailsSection_ok (epic_by_id : List (String × Obj)) (sorted : List Obj)
    (hall : ∀ i ∈ sorted, typeOkB i = true) :
    detailsSection epic_by_id sorted = .ok (detailsSectionL epic_by_id sorted) := by
  simp only [detailsSection, detailsSectionL]
  rw [mapExcept_ok (groupLines epic_by_id sorted) (groupLinesL epic_by_id sorted) _
    (fun gk _ => groupLines_ok epic_by_id sorted gk hall)]
  rfl

theorem renderLines_ok (d : Obj) (include_json : Bool)
    (hall : ∀ i ∈ ((asList (pyGet d "issues")).filter isDictB).map asDict, typeOkB i = true) :
    renderLines d include_json = .ok (renderLinesL d include_json) := by
  have hall2 : ∀ i ∈ sortByKey issueKey (((asList (pyGet d "issues")).filter isDictB).map asDict),
      typeOkB i = true :=
    fun i hi => hall i ((sortByKey_perm issueKey _).mem_iff.mp hi)
  simp only [renderLines, renderLinesL]
  rw [_render_summary_table_ok _ hall2, detailsSection_ok _ _ hall2]

theorem render_ok (bundle : PyVal) (d : Obj) (include_json : Bool)
    (h : _require_object bundle = .ok d)
    (hall : ∀ i ∈ ((asList (pyGet d "issues")).filter isDictB).map asDict, typeOkB i = true) :
    render_issue_bundle_markdown bundle include_json
      = .ok (pyRstrip (String.intercalate "\n" (renderLinesL d include_json)) ++ "\n") := by
  unfold render_issue_bundle_markdown
  rw [h]
  dsimp only
  rw [renderLines_ok d include_json hall]

/-- C1.  A bundle that is not a mapping, misses one of the keys `meta`,
`epics`, `issues`, or binds one of them to the wrong container kind makes
`render_issue_bundle_markdown` fail with the structural error naming exactly
the offending key or constraint.  In this embedding the failure is the
`Except.error` branch, which carries no rendered text at all, so no output is
produced. -/
theorem c1_structural_error (bundle : PyVal) (include_json : Bool) :
    (isDictB bundle = false →
      render_issue_bundle_markdown bundle include_json
        = .error "top-level JSON must be an object")
    ∧ (∀ d : Obj, bundle = .dict d →
        (hasKeyB d "meta" = false →
          render_issue_bundle_markdown bundle include_json
            = .error "missing required top-level key: meta")
        ∧ (hasKeyB d "meta" = true → hasKeyB d "epics" = false →
          render_issue_bundle_markdown bundle include_json
            = .error "missing required top-level key: epics")
        ∧ (hasKeyB d "meta" = true → hasKeyB d "epics" = true → hasKeyB d "issues" = false →
          render_issue_bundle_markdown bundle include_json
            = .error "missing required top-level key: issues")
        ∧ (hasKeyB d "meta" = true → hasKeyB d "epics" = true → hasKeyB d "issues" = true →
           isDictB (pyGet d "meta") = false →
          render_issue_bundle_markdown bundle include_json
            = .error "\x27meta\x27 must be an object")
        ∧ (hasKeyB d "meta" = true → hasKeyB d "epics" = true → hasKeyB d "issues" = true →
           isDictB (pyGet d "meta") = true → isListB (pyGet d "epics") = false →
          render_issue_bundle_markdown bundle include_json
            = .error "\x27epics\x27 must be an array")
        ∧ (hasKeyB d "meta" = true → hasKeyB d "epics" = true → hasKeyB d "issues" = true →
           isDictB (pyGet d "meta") = true → isListB (pyGet d "epics") = true →
           isListB (pyGet d "issues") = false →
          render_issue_bundle_markdown bundle include_json
            = .error "\x27issues\x27 must be an array")) := by
  constructor
  · intro h
    cases bundle <;> simp_all [render_issue_bundle_markdown, _require_object, isDictB]
  · rintro d rfl
    refine ⟨?_, ?_, ?_, ?_, ?_, ?_⟩ <;>
      · intros
        simp_all [render_issue_bundle_markdown, _require_object]

/-- Witness for C1: each failure shape produces its error on a concrete
input. -/
theorem c1_structural_error_witness :
    render_issue_bundle_markdown (.int 0) false = .error "top-level JSON must be an object"
    ∧ render_issue_bundle_markdown (.dict []) false
        = .error "missing required top-level key: meta"
    ∧ render_issue_bundle_markdown (.dict [("meta", .dict [])]) false
        = .error "missing required top-level key: epics"
    ∧ render_issue_bundle_markdown (.dict [("meta", .dict []), ("epics", .list [])]) false
        = .error "missing required top-level key: issues"
    ∧ render_issue_bundle_markdown
        (.dict [("meta", .int 1), ("epics", .list []), ("issues", .list [])]) false
        = .error "\x27meta\x27 must be an object"
    ∧ render_issue_bundle_markdown
        (.dict [("meta", .dict []), ("epics", .str "x"), ("issues", .list [])]) false
        = .error "\x27epics\x27 must be an array"
    ∧ render_issue_bundle_markdown
        (.dict [("meta", .dict []), ("epics", .list []), ("issues", .int 3)]) true
        = .error "\x27issues\x27 must be an array" :=
  ⟨(c1_structural_error _ _).1 rfl,
   ((c1_structural_error _ _).2 _ rfl).1 rfl,
   ((c1_structural_error _ _).2 _ rfl).2.1 rfl rfl,
   ((c1_structural_error _ _).2 _ rfl).2.2.1 rfl rfl rfl,
   ((c1_structural_error _ _).2 _ rfl).2.2.2.1 rfl rfl rfl rfl,
   ((c1_structural_error _ _).2 _ rfl).2.2.2.2.1 rfl rfl rfl rfl rfl,
   ((c1_structural_error _ _).2 _ rfl).2.2.2.2.2 rfl rfl rfl rfl rfl rfl⟩

theorem parseId_canonical (p : String) (n : Nat) (hp : p ≠ "")
    (hup : ∀ c ∈ p.data, isUA c = true) :
    parseId (p ++ "-" ++ String.mk (natChars n)) = some (p, n) := by
  have hdata : (p ++ "-" ++ String.mk (natChars n)).data = p.data ++ '-' :: natChars n := by
    simp [String.data_append]
  have hdash : ∀ c, ('-' :: natChars n).head? = some c → isUA c = false := by
    intro c hc
    simp only [List.head?_cons, Option.some.injEq] at hc
    subst hc
    rfl
  have hsplit := takeWhile_append_all isUA p.data ('-' :: natChars n) hup hdash
  have hpne : p.data.isEmpty = false := by
    cases hd : p.data with
    | nil => exact absurd (String.ext hd) hp
    | cons a l => rfl
  have hdne : (natChars n).isEmpty = false := by
    cases hd : natChars n with
    | nil => exact absurd hd (natChars_ne_nil n)
    | cons a l => rfl
  have hall : (natChars n).all Char.isDigit = true := by
    rw [List.all_eq_true]
    exact natChars_all_digit n
  unfold parseId
  rw [hdata, hsplit.1, hsplit.2]
  simp [hpne, hdne, hall, digitsToNat_natChars]

/-- C3 counterexample.  The claim says an identity whose prefix is not in the
rank table gets numeric component 0; on `"XX-5"` (prefix `XX` unknown to the
issue table) `_id_key` keeps the parsed numeric id 5. -/
theorem c3_id_key_counterexample :
    _id_key (.str "XX-5") ISSUE_PREFIX_ORDER = (99, 5, "XX-5") ∧ (5 : Nat) ≠ 0 := by
  constructor
  · decide
  · decide

/-- C3 amended.  An identity of the shape `<PREFIX>-<digits>` gets the key
`(rank-or-99, parsed_numeric_id, original_string)` even when the prefix is
unknown; a string not matching the shape gets `(99, 0, string)`; a non-string
identity gets `(99, 0, str(value))`, so it sorts among (not strictly after)
the rank-99 strings. -/
theorem c3_id_key_amended :
    (∀ (table : List (String × Nat)) (p : String) (n : Nat),
      p ≠ "" → (∀ c ∈ p.data, isUA c = true) →
      _id_key (.str (p ++ "-" ++ String.mk (natChars n))) table
        = (lookupD table p 99, n, p ++ "-" ++ String.mk (natChars n)))
    ∧ (∀ (table : List (String × Nat)) (s : String),
      parseId s = Option.none → _id_key (.str s) table = (99, 0, s))
    ∧ (∀ (table : List (String × Nat)) (v : PyVal),
      isStrB v = false → _id_key v table = (99, 0, pyStr v)) := by
  refine ⟨?_, ?_, ?_⟩
  · intro table p n hp hup
    simp [_id_key, parseId_canonical p n hp hup]
  · intro table s h
    simp [_id_key, h]
  · intro table v h
    cases v <;> simp_all [_id_key, isStrB]

/-- Witness for C3 amended: concrete instances of each clause. -/
theorem c3_id_key_amended_witness :
    _id_key (.str "TASK-12") ISSUE_PREFIX_ORDER = (1, 12, "TASK-12")
    ∧ _id_key (.str "task-12") ISSUE_PREFIX_ORDER = (99, 0, "task-12")
    ∧ _id_key (.int 7) ISSUE_PREFIX_ORDER = (99, 0, "7") := by
  refine ⟨?_, ?_, ?_⟩
  · have h := c3_id_key_amended.1 ISSUE_PREFIX_ORDER "TASK" 12 (by decide) (by decide)
    simpa using h
  · exact c3_id_key_amended.2.1 ISSUE_PREFIX_ORDER "task-12" (by decide)
  · exact c3_id_key_amended.2.2 ISSUE_PREFIX_ORDER (.int 7) (by decide)

/-- Claim-side restatement of C6, written from the claim text: placeholder
when the estimate is missing or not a mapping or when the `method` key is
absent; the literal `unknown` when the method equals `"unknown"`; otherwise
`"<method> <value>"` when the `value` key is present and the method alone when
it is absent. -/
def estimateSpecClaim (estimate : PyVal) : String :=
  match estimate with
  | .dict d =>
    if !hasKeyB d "method" then "—"
    else if pyGet d "method" = PyVal.str "unknown" then "unknown"
    else if hasKeyB d "value" then pyStr (pyGet d "method") ++ " " ++ pyStr (pyGet d "value")
    else pyStr (pyGet d "method")
  | _ => "—"

/-- C6 counterexample.  On `{"method": null, "value": 5}` the code sees
`estimate.get("method") is None` and yields the placeholder, while the claim
(whose only placeholder condition on `method` is key absence) prescribes
`"None 5"`. -/
theorem c6_estimate_counterexample :
    _format_estimate (.dict [("method", .none), ("value", .int 5)]) = "—"
    ∧ estimateSpecClaim (.dict [("method", .none), ("value", .int 5)]) = "None 5"
    ∧ ("—" : String) ≠ "None 5" := by
  refine ⟨by decide, by decide, by decide⟩

/-- The C6 claim with the two key-absence conditions relaxed to Python's
`is None` checks: `method` absent or null gives the placeholder, and `value`
absent or null renders the method alone. -/
def estimateSpecAmended (estimate : PyVal) : String :=
  match estimate with
  | .dict d =>
    if isNoneB (pyGet d "method") then "—"
    else if pyGet d "method" = PyVal.str "unknown" then "unknown"
    else if isNoneB (pyGet d "value") then pyStr (pyGet d "method")
    else pyStr (pyGet d "method") ++ " " ++ pyStr (pyGet d "value")
  | _ => "—"

/-- C6 amended.  `_format_estimate` agrees with the amended claim everywhere,
and the three concrete examples named by the claim hold. -/
theorem c6_estimate_amended :
    (∀ e : PyVal, _format_estimate e = estimateSpecAmended e)
    ∧ _format_estimate (.dict [("method", .str "unknown")]) = "unknown"
    ∧ _format_estimate (.dict [("method", .str "points"), ("value", .int 5)]) = "points 5"
    ∧ _format_estimate (.dict []) = "—" := by
  refine ⟨?_, by decide, by decide, by decide⟩
  intro e
  cases e <;> rfl

/-- Check that every pipe character is immediately preceded by a backslash;
the first argument carries the character preceding the current position. -/
def pipesOk : Char → List Char → Bool
  | _, [] => true
  | prev, c :: r => (c != '|' || prev == '\\') && pipesOk c r

theorem pipesOk_escPipes : ∀ (cs : List Char) (prev : Char), pipesOk prev (escPipes cs) = true := by
  intro cs
  induction cs with
  | nil => intro prev; rfl
  | cons c r ih =>
    intro prev
    by_cases hc : c = '|'
    · subst hc
      simp only [escPipes, if_pos rfl, pipesOk, Bool.and_eq_true]
      refine ⟨by rfl, ?_, ?_⟩
      · rfl
      · exact ih '|'
    · simp only [escPipes, if_neg hc, pipesOk, Bool.and_eq_true]
      refine ⟨?_, ih c⟩
      have : (c == '|') = false := by
        exact beq_eq_false_iff_ne.mpr hc
      simp [bne, this]

/-- The shared tail of the cell pipeline, written from the words of C4:
newlines collapsed to spaces, surrounding whitespace trimmed, the placeholder
dash when the result is empty, and pipes escaped otherwise. -/
def mdProcess (s : String) : String :=
  if String.mk (pyStripChars (replaceNlChars s.data)) = "" then "—"
  else String.mk (escPipes (pyStripChars (replaceNlChars s.data)))

/-- Claim-side restatement of the C4 cell formatter: `None` gives the dash, a
sequence is comma-joined over the string forms of its non-null elements, any
other value contributes its string form, and the shared pipeline follows. -/
def mdCellSpec (value : PyVal) : String :=
  match value with
  | .none => "—"
  | .list xs =>
    mdProcess (String.intercalate ", " ((xs.filter (fun i => !isNoneB i)).map pyStr))
  | v => mdProcess (pyStr v)

theorem pipesOk_dash (prev : Char) : pipesOk prev ("—" : String).data = true := by
  simp only [pipesOk, Bool.and_eq_true]
  exact ⟨rfl, trivial⟩

theorem pipesOk_mdProcess (s : String) (prev : Char) :
    pipesOk prev (mdProcess s).data = true := by
  unfold mdProcess
  split
  · exact pipesOk_dash prev
  · exact pipesOk_escPipes _ _

/-- C4.  `_md_cell` coincides with the claim's description, every pipe in any
produced cell is escaped by a preceding backslash (so an embedded pipe cannot
open a new table column), and the placeholder laws hold: `None`, the empty
list and whitespace-only strings all render as the dash. -/
theorem c4_md_cell :
    (∀ v : PyVal, _md_cell v = mdCellSpec v)
    ∧ (∀ (v : PyVal) (prev : Char), pipesOk prev (_md_cell v).data = true)
    ∧ _md_cell PyVal.none = "—"
    ∧ _md_cell (.list []) = "—"
    ∧ (∀ s : String, (∀ c ∈ s.data, isPySpace c = true) → _md_cell (.str s) = "—") := by
  have hspec : ∀ v : PyVal, _md_cell v = mdCellSpec v := by
    intro v
    cases v <;> rfl
  refine ⟨hspec, ?_, rfl, by decide, ?_⟩
  · intro v prev
    rw [hspec v]
    cases v with
    | none => exact pipesOk_dash prev
    | bool b => exact pipesOk_mdProcess _ prev
    | int n => exact pipesOk_mdProcess _ prev
    | str s => exact pipesOk_mdProcess _ prev
    | list xs => exact pipesOk_mdProcess _ prev
    | dict kvs => exact pipesOk_mdProcess _ prev
  · intro s hs
    rw [hspec (.str s)]
    show mdProcess s = "—"
    unfold mdProcess
    have hmap : ∀ c ∈ replaceNlChars s.data, isPySpace c = true := by
      intro c hc
      unfold replaceNlChars at hc
      obtain ⟨a, ha, rfl⟩ := List.mem_map.mp hc
      by_cases hna : a = '\n'
      · simp [hna, isPySpace]
      · simpa [hna] using hs a ha
    have h1 : (replaceNlChars s.data).dropWhile isPySpace = [] :=
      List.dropWhile_eq_nil_iff.mpr hmap
    have h2 : pyStripChars (replaceNlChars s.data) = [] := by
      unfold pyStripChars
      rw [h1]
      rfl
    rw [h2]
    rfl

/-- Witness for C4: the whitespace-only clause at a concrete string, through
the theorem itself. -/
theorem c4_md_cell_witness : _md_cell (.str " \t ") = "—" :=
  c4_md_cell.2.2.2.2 " \t " (by decide)

theorem head_dropWhile_false {α : Type} (p : α → Bool) :
    ∀ (l : List α) (c : α), (l.dropWhile p).head? = some c → p c = false
  | [], c => by simp
  | a :: l, c => by
    by_cases ha : p a
    · rw [List.dropWhile_cons_of_pos ha]
      exact head_dropWhile_false p l c
    · rw [List.dropWhile_cons_of_neg ha]
      intro h
      simp only [List.head?_cons, Option.some.injEq] at h
      subst h
      simpa using ha

theorem pyRstrip_getLast (s : String) (c : Char) :
    (pyRstrip s).data.getLast? = some c → isPySpace c = false := by
  unfold pyRstrip
  rw [show (String.mk (s.data.reverse.dropWhile isPySpace).reverse).data
      = (s.data.reverse.dropWhile isPySpace).reverse from rfl]
  rw [List.getLast?_reverse]
  exact head_dropWhile_false isPySpace _ c

/-- A shape-valid bundle whose single issue carries the unhashable `type`
value `[]`. -/
def bundleC8X : Obj :=
  [("meta", .dict []), ("epics", .list []),
   ("issues", .list [.dict [("id", .str "TASK-1"), ("type", .list [])]])]

/-- C8.  The claim (and the spec) says rendering always succeeds once the
shape check passes; the code does not: on the shape-valid `bundleC8X` the
`TYPE_DISPLAY.get` call raises an uncaught `TypeError` while the summary
table is built, for either embed flag, and no output is produced — a code
bug against the stated totality.  On bundles whose mapping-shaped issues all
carry hashable `type` values the rest of the claim does hold: rendering
succeeds and returns non-empty right-stripped text terminated by exactly one
newline (final character a newline, the one before it neither space nor
newline). -/
theorem c8_render_totality_bug :
    _require_object (.dict bundleC8X) = .ok bundleC8X
    ∧ render_issue_bundle_markdown (.dict bundleC8X) false
        = .error "TypeError: unhashable type: \x27list\x27"
    ∧ render_issue_bundle_markdown (.dict bundleC8X) true
        = .error "TypeError: unhashable type: \x27list\x27"
    ∧ ∀ (bundle : PyVal) (d : Obj) (include_json : Bool),
        _require_object bundle = .ok d →
        (∀ i ∈ ((asList (pyGet d "issues")).filter isDictB).map asDict, typeOkB i = true) →
        ∃ t : String,
          render_issue_bundle_markdown bundle include_json = .ok t
          ∧ t ≠ ""
          ∧ t.data.getLast? = some '\n'
          ∧ ∀ c : Char, t.data.dropLast.getLast? = some c → c ≠ ' ' ∧ c ≠ '\n' := by
  refine ⟨rfl, rfl, rfl, ?_⟩
  intro bundle d include_json h hall
  refine ⟨pyRstrip (String.intercalate "\n" (renderLinesL d include_json)) ++ "\n",
    render_ok bundle d include_json h hall, ?_, ?_, ?_⟩
  · intro hempty
    have hdata := congrArg String.data hempty
    rw [String.data_append] at hdata
    simp at hdata
  · rw [String.data_append]
    exact List.getLast?_concat _
  · intro c hc
    rw [String.data_append, show ("\n" : String).data = ['\n'] from rfl,
      List.dropLast_concat] at hc
    have hns := pyRstrip_getLast _ c hc
    constructor
    · rintro rfl
      simp [isPySpace] at hns
    · rintro rfl
      simp [isPySpace] at hns

/-- Witness for C8: the success conjunct applied at a concrete minimal
bundle. -/
theorem c8_render_totality_bug_witness :
    ∃ t : String,
      render_issue_bundle_markdown
          (.dict [("meta", .dict []), ("epics", .list []), ("issues", .list [])]) false = .ok t
      ∧ t ≠ ""
      ∧ t.data.getLast? = some '\n'
      ∧ ∀ c : Char, t.data.dropLast.getLast? = some c → c ≠ ' ' ∧ c ≠ '\n' :=
  c8_render_totality_bug.2.2.2
    (.dict [("meta", .dict []), ("epics", .list []), ("issues", .list [])])
    [("meta", .dict []), ("epics", .list []), ("issues", .list [])] false rfl (by decide)

/-- A markdown table row assembled from an explicit cell list. -/
def rowOfCells (cells : List String) : String :=
  "| " ++ String.intercalate " | " cells ++ " |"

theorem summaryRowL_cells (issue : Obj) :
    summaryRowL issue = rowOfCells
      [_md_cell (pyGet issue "id"),
       _md_cell (typeDisplayL (pyGet issue "type")),
       _md_cell (pyGet issue "priority"),
       _md_cell (pyGet issue "status"),
       _md_cell (pyGet issue "epic_id"),
       _md_cell (pyGet issue "parent_id"),
       _md_cell (pyGet issue "workstream"),
       _md_cell (pyGet issue "title"),
       _md_cell (pyGet issue "blocked_by")] := by
  apply String.ext
  simp [rowOfCells, summaryRowL, String.intercalate, String.intercalate.go,
    String.data_append, List.append_assoc]

/-- A shape-valid bundle whose single mapping-shaped issue carries the
unhashable `type` value `[]`. -/
def bundleC2X : Obj :=
  [("meta", .dict []), ("epics", .list []),
   ("issues", .list [.dict [("id", .str "US-1"), ("type", .list [])]])]

/-- C2 counterexample.  The claim asserts the Backlog Summary table, with one
data row per mapping-shaped issue, for every bundle passing the shape check;
on the shape-valid `bundleC2X` the `TYPE_DISPLAY.get` call raises `TypeError`
on the list-valued `type` while the table rows are built, so rendering
produces no output and no table with a row per issue exists. -/
theorem c2_summary_table_counterexample :
    _require_object (.dict bundleC2X) = .ok bundleC2X
    ∧ _render_summary_table
        (sortByKey issueKey (((asList (pyGet bundleC2X "issues")).filter isDictB).map asDict))
      = .error "TypeError: unhashable type: \x27list\x27"
    ∧ render_issue_bundle_markdown (.dict bundleC2X) false
      = .error "TypeError: unhashable type: \x27list\x27"
    ∧ render_issue_bundle_markdown (.dict bundleC2X) true
      = .error "TypeError: unhashable type: \x27list\x27" := by
  refine ⟨rfl, by decide, rfl, rfl⟩

/-- C2 amended.  For a bundle passing the shape check none of whose
mapping-shaped issues carries an unhashable (list or mapping) `type` value,
the summary table is built without raising and the rendered lines contain
the Backlog Summary block over the sorted mapping-shaped issues: the three
header lines, the column row, the separator row, and then one data row per
mapping-shaped element of `issues`; the data rows follow the issue identity
keys in non-decreasing `keyLeB` order; and every data row is the pipe-joined
list of exactly the nine cells id, type, priority, status, epic, parent,
workstream, title, blocked-by, in that order. -/
theorem c2_summary_table_amended (bundle : PyVal) (d : Obj)
    (_h : _require_object bundle = .ok d)
    (hall : ∀ i ∈ ((asList (pyGet d "issues")).filter isDictB).map asDict, typeOkB i = true)
    (include_json : Bool) :
    _render_summary_table
        (sortByKey issueKey (((asList (pyGet d "issues")).filter isDictB).map asDict))
      = .ok (summaryTableL
          (sortByKey issueKey (((asList (pyGet d "issues")).filter isDictB).map asDict)))
    ∧ (∃ pre post, renderLines d include_json
        = .ok (pre ++ (summaryTableL
            (sortByKey issueKey (((asList (pyGet d "issues")).filter isDictB).map asDict))
              ++ post)))
    ∧ summaryTableL
          (sortByKey issueKey (((asList (pyGet d "issues")).filter isDictB).map asDict))
        = ["", "## Backlog Summary", "",
           "| ID | Type | P | Status | Epic | Parent | WS | Title | Blocked by |",
           "|---|---|---|---|---|---|---|---|---|"]
          ++ (sortByKey issueKey (((asList (pyGet d "issues")).filter isDictB).map asDict)).map
              summaryRowL
    ∧ ((sortByKey issueKey (((asList (pyGet d "issues")).filter isDictB).map asDict)).map
          summaryRowL).length
        = ((asList (pyGet d "issues")).filter isDictB).length
    ∧ List.Sorted (fun a b => keyLeB a b = true)
        ((sortByKey issueKey (((asList (pyGet d "issues")).filter isDictB).map asDict)).map
          issueKey)
    ∧ ∀ issue : Obj, summaryRowL issue = rowOfCells
        [_md_cell (pyGet issue "id"),
         _md_cell (typeDisplayL (pyGet issue "type")),
         _md_cell (pyGet issue "priority"),
         _md_cell (pyGet issue "status"),
         _md_cell (pyGet issue "epic_id"),
         _md_cell (pyGet issue "parent_id"),
         _md_cell (pyGet issue "workstream"),
         _md_cell (pyGet issue "title"),
         _md_cell (pyGet issue "blocked_by")] := by
  have hall2 : ∀ i ∈ sortByKey issueKey (((asList (pyGet d "issues")).filter isDictB).map asDict),
      typeOkB i = true :=
    fun i hi => hall i ((sortByKey_perm issueKey _).mem_iff.mp hi)
  refine ⟨_render_summary_table_ok _ hall2, ?_, rfl, ?_, ?_, summaryRowL_cells⟩
  · refine ⟨["# Issue Bundle — "
        ++ (match pyGet (asDict (pyGet d "meta")) "project" with
            | .str s => s
            | _ => "TBD"), ""]
      ++ _render_meta (asDict (pyGet d "meta"))
      ++ _render_epics (asList (pyGet d "epics")),
      detailsSectionL (epicById (asList (pyGet d "epics")))
          (sortByKey issueKey (((asList (pyGet d "issues")).filter isDictB).map asDict))
        ++ (if include_json then
              ["", "## Issue Bundle (JSON)", "", "```json", jsonDumps (.dict d), "```"]
            else []), ?_⟩
    rw [renderLines_ok d include_json hall]
    simp only [renderLinesL, List.append_assoc]
  · rw [List.length_map, sortByKey_length, List.length_map]
  · rw [List.Sorted, List.pairwise_map]
    exact sortByKey_sorted issueKey _

/-- Witness for C2 amended at a concrete two-issue bundle. -/
theorem c2_summary_table_amended_witness :
    ((sortByKey issueKey
        (((asList (pyGet [("meta", PyVal.dict []), ("epics", PyVal.list []),
            ("issues", PyVal.list [.dict [("id", .str "TASK-3")], .int 7,
              .dict [("id", .str "US-9")]])] "issues")).filter isDictB).map asDict)).map
        summaryRowL).length
      = ((asList (pyGet [("meta", PyVal.dict []), ("epics", PyVal.list []),
            ("issues", PyVal.list [.dict [("id", .str "TASK-3")], .int 7,
              .dict [("id", .str "US-9")]])] "issues")).filter isDictB).length :=
  (c2_summary_table_amended
    (.dict [("meta", PyVal.dict []), ("epics", PyVal.list []),
      ("issues", PyVal.list [.dict [("id", .str "TASK-3")], .int 7,
        .dict [("id", .str "US-9")]])])
    [("meta", PyVal.dict []), ("epics", PyVal.list []),
      ("issues", PyVal.list [.dict [("id", .str "TASK-3")], .int 7,
        .dict [("id", .str "US-9")]])]
    rfl (by decide) false).2.2.2.1

def us1C9 : Obj := [("id", .str "US-1"), ("type", .str "user_story"), ("title", .str "Parent story")]

def us2C9 : Obj :=
  [("id", .str "US-2"), ("type", .str "user_story"), ("title", .str "Child story"),
   ("parent_id", .str "US-1")]

def bundleC9 : Obj :=
  [("meta", .dict []), ("epics", .list []),
   ("issues", .list [.dict us1C9, .dict us2C9])]

/-- C9.  A user story whose `parent_id` names another user story is rendered
twice in Issue Details: once as a top-level story of its group and once as a
child under its parent; on this bundle the details section succeeds and is
exactly the heading lines followed by the blocks of US-1, US-2 and US-2
again, so US-2's heading line occurs twice. -/
theorem c9_story_child_rendered_twice :
    _require_object (.dict bundleC9) = .ok bundleC9
    ∧ detailsSection (epicById (asList (pyGet bundleC9 "epics")))
        (sortByKey issueKey (((asList (pyGet bundleC9 "issues")).filter isDictB).map asDict))
      = .ok (["", "## Issue Details", "", "### No Epic"]
          ++ issueDetailL us1C9 ++ issueDetailL us2C9 ++ issueDetailL us2C9)
    ∧ (["", "## Issue Details", "", "### No Epic"]
        ++ issueDetailL us1C9 ++ issueDetailL us2C9 ++ issueDetailL us2C9).count
        "#### US-2: Child story" = 2 := by
  refine ⟨rfl, ?_, ?_⟩ <;> decide

def taskC5X : Obj :=
  [("id", .str "TASK-9"), ("type", .str "task"), ("title", .str "Dangling"),
   ("parent_id", .str "US-404")]

def bundleC5X : Obj :=
  [("meta", .dict []), ("epics", .list []), ("issues", .list [.dict taskC5X])]

/-- C5 counterexample.  A task whose nonempty `parent_id` names no rendered
user story neither appears as a child nor at top level: on this valid bundle
the Issue Details section consists of the headings alone and contains no block
for TASK-9, refuting the claim that every non-story issue with a nonempty
`parent_id` appears as a child under its parent. -/
theorem c5_child_nesting_counterexample :
    _require_object (.dict bundleC5X) = .ok bundleC5X
    ∧ typeIsUS taskC5X = false
    ∧ pyGet taskC5X "parent_id" = .str "US-404"
    ∧ detailsSection (epicById (asList (pyGet bundleC5X "epics")))
        (sortByKey issueKey (((asList (pyGet bundleC5X "issues")).filter isDictB).map asDict))
      = .ok ["", "## Issue Details", "", "### No Epic"]
    ∧ "#### TASK-9: Dangling" ∉ ["", "## Issue Details", "", "### No Epic"] := by
  refine ⟨rfl, rfl, rfl, by decide, by decide⟩

def epicC5 : Obj := [("id", .str "E-1"), ("title", .str "Epic One")]

def us1C5 : Obj :=
  [("id", .str "US-1"), ("type", .str "user_story"), ("title", .str "Story One"),
   ("parent_id", .none), ("epic_id", .str "E-1")]

def task1C5 : Obj :=
  [("id", .str "TASK-1"), ("type", .str "task"), ("title", .str "Task One"),
   ("parent_id", .str "US-1"), ("epic_id", .str "E-1")]

def bundleC5 : Obj :=
  [("meta", .dict []), ("epics", .list [.dict epicC5]),
   ("issues", .list [.dict us1C5, .dict task1C5])]

/-- The issues whose detail blocks one epic group emits, in emission order:
each sorted user story followed by its sorted children, then the top-level
non-story members. -/
def groupDetailIssues (sorted : List Obj) (eid : Option String) : List Obj :=
  (sortByKey usKey ((groupOf sorted eid).filter typeIsUS)).flatMap (fun story =>
    story ::
      (match pyGet story "id" with
       | .str sid =>
         if !(childrenOf sorted sid).isEmpty then sortByKey4 childKey (childrenOf sorted sid)
         else []
       | _ => []))
  ++ (groupOf sorted eid).filter (fun i => !typeIsUS i && !pyTruthy (pyGet i "parent_id"))

theorem storyBlockL_eq (sorted : List Obj) (story : Obj) :
    storyBlockL sorted story
      = (story ::
          (match pyGet story "id" with
           | .str sid =>
             if !(childrenOf sorted sid).isEmpty then sortByKey4 childKey (childrenOf sorted sid)
             else []
           | _ => [])).flatMap issueDetailL := by
  rw [List.flatMap_cons]
  unfold storyBlockL
  congr 1
  cases pyGet story "id" <;> try simp
  split <;> simp

/-- The lines of one epic group are its heading followed by the detail blocks
of exactly `groupDetailIssues`, in order. -/
theorem groupLinesL_eq (epic_by_id : List (String × Obj)) (sorted : List Obj)
    (eid : Option String) :
    groupLinesL epic_by_id sorted eid
      = epicHeading epic_by_id eid
        ++ (groupDetailIssues sorted eid).flatMap issueDetailL := by
  unfold groupLinesL groupDetailIssues
  rw [List.flatMap_append, List.flatMap_assoc, funext (storyBlockL_eq sorted)]
  simp [List.append_assoc]

/-- C5 amended.  Children are attached only through nonempty string parent
ids: for every issue list with hashable `type` values, the Issue Details
section succeeds and is exactly the group headings, each group's sorted user
stories each directly followed by the (unindented) detail blocks of its
children, then the group's top-level others; and an issue is emitted by a
group exactly when it is a group member of story type, or a group member
that is neither a story nor truthy-parented, or the child of some rendered
story of the group — an issue of the sorted list whose `parent_id` is a
nonempty string equal to the story's string id.  So a non-story issue with a
truthy `parent_id` is never emitted at top level, appears directly after a
story exactly when its `parent_id` is a nonempty string equal to that
story's string id, and is omitted from Issue Details otherwise (in
particular for a dangling, non-string or non-matching parent reference).
On the claim's scenario bundle (epic E-1, story US-1 with null parent, task
TASK-1 with parent "US-1") the section is exactly the headings, US-1's full
block, then TASK-1's block, under E-1. -/
theorem c5_child_nesting_amended :
    (∀ (epic_by_id : List (String × Obj)) (sorted : List Obj),
      (∀ i ∈ sorted, typeOkB i = true) →
      detailsSection epic_by_id sorted
        = .ok (["", "## Issue Details"]
            ++ (groupKeys sorted).flatMap (fun eid =>
                 epicHeading epic_by_id eid
                 ++ (groupDetailIssues sorted eid).flatMap issueDetailL)))
    ∧ (∀ (sorted : List Obj) (eid : Option String) (i : Obj),
        i ∈ groupDetailIssues sorted eid ↔
          (i ∈ groupOf sorted eid ∧ typeIsUS i = true)
          ∨ (∃ s, s ∈ groupOf sorted eid ∧ typeIsUS s = true
              ∧ ∃ sid : String, pyGet s "id" = .str sid
                ∧ i ∈ sorted
                ∧ ∃ q : String, pyGet i "parent_id" = .str q ∧ q ≠ "" ∧ q = sid)
          ∨ (i ∈ groupOf sorted eid ∧ typeIsUS i = false
              ∧ pyTruthy (pyGet i "parent_id") = false))
    ∧ _require_object (.dict bundleC5) = .ok bundleC5
    ∧ detailsSection (epicById (asList (pyGet bundleC5 "epics")))
        (sortByKey issueKey (((asList (pyGet bundleC5 "issues")).filter isDictB).map asDict))
      = .ok (["", "## Issue Details", "", "### E-1: Epic One"]
          ++ issueDetailL us1C5 ++ issueDetailL task1C5) := by
  refine ⟨?_, ?_, rfl, by decide⟩
  · intro epic_by_id sorted hall
    rw [detailsSection_ok epic_by_id sorted hall]
    unfold detailsSectionL
    rw [funext (groupLinesL_eq epic_by_id sorted)]
  · intro sorted eid i
    unfold groupDetailIssues
    constructor
    · intro hmem
      rcases List.mem_append.mp hmem with hmem | hmem
      · obtain ⟨s, hs, hin⟩ := List.mem_flatMap.mp hmem
        have hs2 : s ∈ (groupOf sorted eid).filter typeIsUS :=
          (sortByKey_perm usKey _).mem_iff.mp hs
        have hsUS : typeIsUS s = true := (List.mem_filter.mp hs2).2
        have hsg : s ∈ groupOf sorted eid := List.mem_of_mem_filter hs2
        rcases List.mem_cons.mp hin with rfl | hin2
        · exact Or.inl ⟨hsg, hsUS⟩
        · cases hid : pyGet s "id" <;> rw [hid] at hin2 <;> dsimp only at hin2
          case str sid =>
            by_cases hempty : (childrenOf sorted sid).isEmpty = true
            · simp [hempty] at hin2
            · rw [Bool.not_eq_true] at hempty
              rw [hempty] at hin2
              simp only [Bool.not_false, if_true] at hin2
              have hchild : i ∈ childrenOf sorted sid :=
                (sortByKey4_perm childKey _).mem_iff.mp hin2
              have hisort : i ∈ sorted := mem_of_mem_childrenOf hchild
              have hcond := (List.mem_filter.mp hchild).2
              refine Or.inr (Or.inl ⟨s, hsg, hsUS, sid, hid, hisort, ?_⟩)
              cases hpar : pyGet i "parent_id" <;> rw [hpar] at hcond <;> simp at hcond
              exact ⟨_, rfl, hcond.1, hcond.2⟩
          all_goals simp at hin2
      · have hg := (List.mem_filter.mp hmem).1
        have hb := (List.mem_filter.mp hmem).2
        rw [Bool.and_eq_true] at hb
        exact Or.inr (Or.inr ⟨hg, by simpa using hb.1, by simpa using hb.2⟩)
    · intro hcase
      rcases hcase with ⟨hg, hUS⟩ | ⟨s, hsg, hsUS, sid, hid, hisort, q, hpar, hqne, rfl⟩
        | ⟨hg, hUS, hpt⟩
      · refine List.mem_append.mpr (Or.inl ?_)
        refine List.mem_flatMap.mpr ⟨i, ?_, List.mem_cons_self i _⟩
        exact (sortByKey_perm usKey _).mem_iff.mpr (List.mem_filter.mpr ⟨hg, hUS⟩)
      · refine List.mem_append.mpr (Or.inl ?_)
        have hchild : i ∈ childrenOf sorted q := by
          refine List.mem_filter.mpr ⟨hisort, ?_⟩
          rw [hpar]
          simp [hqne]
        have hef : (childrenOf sorted q).isEmpty = false := by
          cases he : (childrenOf sorted q).isEmpty
          · rfl
          · rw [List.isEmpty_iff] at he
            rw [he] at hchild
            exact absurd hchild (List.not_mem_nil i)
        refine List.mem_flatMap.mpr ⟨s, ?_, ?_⟩
        · exact (sortByKey_perm usKey _).mem_iff.mpr (List.mem_filter.mpr ⟨hsg, hsUS⟩)
        · refine List.mem_cons.mpr (Or.inr ?_)
          rw [hid]
          dsimp only
          rw [hef]
          simp only [Bool.not_false, if_true]
          exact (sortByKey4_perm childKey _).mem_iff.mpr hchild
      · refine List.mem_append.mpr (Or.inr ?_)
        refine List.mem_filter.mpr ⟨hg, ?_⟩
        rw [Bool.and_eq_true]
        exact ⟨by simp [hUS], by simp [hpt]⟩

/-- A one-story issue list for the C5 witness. -/
def usW5 : Obj := [("id", .str "US-3"), ("type", .str "user_story")]

/-- Witness for C5 amended: the structural clause applied at a concrete
one-story list. -/
theorem c5_child_nesting_amended_witness :
    detailsSection [] [usW5]
      = .ok (["", "## Issue Details"]
          ++ (groupKeys [usW5]).flatMap (fun eid =>
               epicHeading [] eid ++ (groupDetailIssues [usW5] eid).flatMap issueDetailL)) :=
  c5_child_nesting_amended.1 [] [usW5] (by decide)

/-- The orphan of the C10 counterexample: a dangling parent reference and an
unhashable `type` value at once. -/
def orphanC10X : Obj :=
  [("id", .str "TASK-9"), ("type", .list []), ("parent_id", .str "US-404")]

/-- Its bundle. -/
def bundleC10X : Obj :=
  [("meta", .dict []), ("epics", .list []), ("issues", .list [.dict orphanC10X])]

/-- C10 counterexample.  The claim asserts the orphan's summary row for every
valid bundle; on the shape-valid `bundleC10X` the orphan is not a user story
(its `type` is the list `[]`) and its `parent_id` names no story, yet
rendering raises `TypeError` at `TYPE_DISPLAY.get` on the unhashable `type`,
so no summary table and no row exist. -/
theorem c10_orphan_omitted_counterexample :
    _require_object (.dict bundleC10X) = .ok bundleC10X
    ∧ typeIsUS orphanC10X = false
    ∧ pyGet orphanC10X "parent_id" = .str "US-404"
    ∧ _render_summary_table
        (sortByKey issueKey (((asList (pyGet bundleC10X "issues")).filter isDictB).map asDict))
      = .error "TypeError: unhashable type: \x27list\x27"
    ∧ render_issue_bundle_markdown (.dict bundleC10X) false
      = .error "TypeError: unhashable type: \x27list\x27" := by
  refine ⟨rfl, rfl, rfl, by decide, rfl⟩

/-- C10 amended.  For a bundle passing the shape check none of whose
mapping-shaped issues carries an unhashable (list or mapping) `type` value:
an issue that is not a user story, whose `parent_id` is a nonempty string
naming no user story of the bundle, is emitted by no epic group of the Issue
Details section (the section succeeds and is exactly the headings plus the
blocks of `groupDetailIssues`, and the issue is in no group's list), while
its row still appears in the summary table the renderer produces. -/
theorem c10_orphan_omitted_amended (bundle : PyVal) (d : Obj)
    (_h : _require_object bundle = .ok d)
    (hall : ∀ i ∈ ((asList (pyGet d "issues")).filter isDictB).map asDict, typeOkB i = true)
    (i : Obj) (p : String)
    (hi : i ∈ ((asList (pyGet d "issues")).filter isDictB).map asDict)
    (htype : typeIsUS i = false)
    (hpar : pyGet i "parent_id" = .str p)
    (hp : p ≠ "")
    (horphan : ∀ s ∈ ((asList (pyGet d "issues")).filter isDictB).map asDict,
        typeIsUS s = true → pyGet s "id" ≠ .str p) :
    (∀ eid : Option String,
        i ∉ groupDetailIssues
          (sortByKey issueKey (((asList (pyGet d "issues")).filter isDictB).map asDict)) eid)
    ∧ summaryRowL i
        ∈ summaryTableL
            (sortByKey issueKey (((asList (pyGet d "issues")).filter isDictB).map asDict))
    ∧ _render_summary_table
          (sortByKey issueKey (((asList (pyGet d "issues")).filter isDictB).map asDict))
        = .ok (summaryTableL
            (sortByKey issueKey (((asList (pyGet d "issues")).filter isDictB).map asDict)))
    ∧ detailsSection (epicById (asList (pyGet d "epics")))
          (sortByKey issueKey (((asList (pyGet d "issues")).filter isDictB).map asDict))
        = .ok (["", "## Issue Details"]
          ++ (groupKeys
              (sortByKey issueKey
                (((asList (pyGet d "issues")).filter isDictB).map asDict))).flatMap
              (fun eid =>
                epicHeading (epicById (asList (pyGet d "epics"))) eid
                  ++ (groupDetailIssues
                      (sortByKey issueKey
                        (((asList (pyGet d "issues")).filter isDictB).map asDict)) eid).flatMap
                      issueDetailL)) := by
  set ids := ((asList (pyGet d "issues")).filter isDictB).map asDict with hids
  set S := sortByKey issueKey ids with hS
  have hmemS : ∀ j : Obj, j ∈ S → j ∈ ids := fun j hj =>
    (sortByKey_perm issueKey ids).mem_iff.mp hj
  have hallS : ∀ j ∈ S, typeOkB j = true := fun j hj => hall j (hmemS j hj)
  refine ⟨?_, ?_, _render_summary_table_ok S hallS, ?_⟩
  · intro eid hmem
    unfold groupDetailIssues at hmem
    rcases List.mem_append.mp hmem with hmem | hmem
    · obtain ⟨story, hstory, hin⟩ := List.mem_flatMap.mp hmem
      have hstory2 : story ∈ (groupOf S eid).filter typeIsUS :=
        (sortByKey_perm usKey _).mem_iff.mp hstory
      have hstoryUS : typeIsUS story = true := (List.mem_filter.mp hstory2).2
      have hgroup : story ∈ groupOf S eid := List.mem_of_mem_filter hstory2
      have hstoryS : story ∈ S := by
        unfold groupOf at hgroup
        exact List.mem_of_mem_filter hgroup
      rcases List.mem_cons.mp hin with rfl | hin2
      · rw [htype] at hstoryUS
        exact Bool.false_ne_true hstoryUS
      · cases hid : pyGet story "id" <;> rw [hid] at hin2 <;> dsimp only at hin2
        case str sid =>
          by_cases hempty : (childrenOf S sid).isEmpty = true
          · simp [hempty] at hin2
          · rw [Bool.not_eq_true] at hempty
            rw [hempty] at hin2
            simp only [Bool.not_false, if_true] at hin2
            have hchild : i ∈ childrenOf S sid := (sortByKey4_perm childKey _).mem_iff.mp hin2
            have hcond := (List.mem_filter.mp hchild).2
            rw [hpar] at hcond
            simp only [Bool.and_eq_true, bne_iff_ne, beq_iff_eq] at hcond
            have hidp : pyGet story "id" = PyVal.str p := by
              rw [hid, ← hcond.2]
            exact horphan story (hmemS story hstoryS) hstoryUS hidp
        all_goals simp at hin2
    · have hcond := (List.mem_filter.mp hmem).2
      rw [Bool.and_eq_true] at hcond
      have htr := hcond.2
      rw [hpar] at htr
      have hfalse : pyTruthy (PyVal.str p) = false := by
        cases hpt : pyTruthy (PyVal.str p)
        · rfl
        · rw [hpt] at htr
          exact absurd htr (by simp)
      have : (p != "") = false := hfalse
      exact hp (by simpa using this)
  · unfold summaryTableL
    refine List.mem_append.mpr (Or.inr ?_)
    exact List.mem_map_of_mem summaryRowL ((sortByKey_perm issueKey ids).mem_iff.mpr hi)
  · rw [detailsSection_ok (epicById (asList (pyGet d "epics"))) S hallS]
    unfold detailsSectionL
    rw [funext (groupLinesL_eq (epicById (asList (pyGet d "epics"))) S)]

/-- Witness for C10 amended: the dangling-parent task of `bundleC5X` is in no
group's detail list yet its summary row is present. -/
theorem c10_orphan_omitted_amended_witness :
    (∀ eid : Option String,
        taskC5X ∉ groupDetailIssues
          (sortByKey issueKey
            (((asList (pyGet bundleC5X "issues")).filter isDictB).map asDict)) eid)
    ∧ summaryRowL taskC5X
        ∈ summaryTableL
            (sortByKey issueKey
              (((asList (pyGet bundleC5X "issues")).filter isDictB).map asDict)) :=
  have h := c10_orphan_omitted_amended (.dict bundleC5X) bundleC5X rfl (by decide) taskC5X
    "US-404" (by decide) rfl rfl (by decide) (by decide)
  ⟨h.1, h.2.1⟩

def jsonWs (c : Char) : Bool := c = ' ' || c = '\t' || c = '\n' || c = '\r'

def skipWs (cs : List Char) : List Char := cs.dropWhile jsonWs

def hexVal (c : Char) : Option Nat :=
  if '0' ≤ c ∧ c ≤ '9' then some (c.toNat - 48)
  else if 'a' ≤ c ∧ c ≤ 'f' then some (c.toNat - 87)
  else if 'A' ≤ c ∧ c ≤ 'F' then some (c.toNat - 55)
  else Option.none

def jsonUnescChar : Char → Option Char
  | '"' => some '"'
  | '\\' => some '\\'
  | '/' => some '/'
  | 'b' => some '\x08'
  | 'f' => some '\x0c'
  | 'n' => some '\n'
  | 'r' => some '\r'
  | 't' => some '\t'
  | _ => Option.none

/-- Modelled from the spec: the body of a JSON string literal after the
opening quote, as read by the external parser collaborator (`json.loads` in
the reference transport, whose code is not part of this repository); returns
the decoded characters and the input after the closing quote. -/
def parseStrBody : List Char → Option (List Char × List Char)
  | [] => Option.none
  | c :: r =>
    if c = '"' then some ([], r)
    else if c = '\\' then
      match r with
      | [] => Option.none
      | e :: r2 =>
        if e = 'u' then
          match r2 with
          | a :: b :: c2 :: d :: r3 =>
            match hexVal a, hexVal b, hexVal c2, hexVal d with
            | some va, some vb, some vc, some vd =>
              match parseStrBody r3 with
              | some (cs, rest) =>
                some (Char.ofNat (4096 * va + 256 * vb + 16 * vc + vd) :: cs, rest)
              | Option.none => Option.none
            | _, _, _, _ => Option.none
          | _ => Option.none
        else
          match jsonUnescChar e with
          | some u =>
            match parseStrBody r2 with
            | some (cs, rest) => some (u :: cs, rest)
            | Option.none => Option.none
          | Option.none => Option.none
    else
      match parseStrBody r with
      | some (cs, rest) => some (c :: cs, rest)
      | Option.none => Option.none

mutual

/-- Modelled from the spec: the external parser collaborator turning
structured text into a generic value (JSON in the reference transport); it is
fuelled by the nesting budget and accepts the grammar `json.dumps` emits. -/
def parseVal : Nat → List Char → Option (PyVal × List Char)
  | 0, _ => Option.none
  | fuel + 1, cs =>
    match skipWs cs with
    | [] => Option.none
    | c :: r =>
      if c = '\x7b' then parseObjRest fuel r
      else if c = '[' then parseArrRest fuel r
      else if c = '"' then
        match parseStrBody r with
        | some (cs2, r2) => some (.str (String.mk cs2), r2)
        | Option.none => Option.none
      else if c = 'n' then
        match r with
        | 'u' :: 'l' :: 'l' :: r2 => some (.none, r2)
        | _ => Option.none
      else if c = 't' then
        match r with
        | 'r' :: 'u' :: 'e' :: r2 => some (.bool true, r2)
        | _ => Option.none
      else if c = 'f' then
        match r with
        | 'a' :: 'l' :: 's' :: 'e' :: r2 => some (.bool false, r2)
        | _ => Option.none
      else if c = '-' then
        if (r.takeWhile Char.isDigit).isEmpty then Option.none
        else some (.int (-(digitsToNat (r.takeWhile Char.isDigit) : Int)),
          r.dropWhile Char.isDigit)
      else if c.isDigit then
        some (.int (digitsToNat ((c :: r).takeWhile Char.isDigit) : Int),
          (c :: r).dropWhile Char.isDigit)
      else Option.none

def parseObjRest : Nat → List Char → Option (PyVal × List Char)
  | fuel, r =>
    match skipWs r with
    | [] => Option.none
    | c :: r2 =>
      if c = '\x7d' then some (.dict [], r2)
      else
        match parseMembers fuel r with
        | some (kvs, r3) => some (.dict kvs, r3)
        | Option.none => Option.none

def parseArrRest : Nat → List Char → Option (PyVal × List Char)
  | fuel, r =>
    match skipWs r with
    | [] => Option.none
    | c :: r2 =>
      if c = ']' then some (.list [], r2)
      else
        match parseElems fuel r with
        | some (xs, r3) => some (.list xs, r3)
        | Option.none => Option.none

def parseMembers : Nat → List Char → Option (Obj × List Char)
  | 0, _ => Option.none
  | fuel + 1, cs =>
    match skipWs cs with
    | [] => Option.none
    | c :: r =>
      if c = '"' then
        match parseStrBody r with
        | some (kcs, r2) =>
          match skipWs r2 with
          | c2 :: r3 =>
            if c2 = ':' then
              match parseVal fuel r3 with
              | some (v, r4) =>
                match skipWs r4 with
                | c3 :: r5 =>
                  if c3 = ',' then
                    match parseMembers fuel r5 with
                    | some (kvs, r6) => some ((String.mk kcs, v) :: kvs, r6)
                    | Option.none => Option.none
                  else if c3 = '\x7d' then some ([(String.mk kcs, v)], r5)
                  else Option.none
                | [] => Option.none
              | Option.none => Option.none
            else Option.none
          | [] => Option.none
        | Option.none => Option.none
      else Option.none

def parseElems : Nat → List Char → Option (List PyVal × List Char)
  | 0, _ => Option.none
  | fuel + 1, cs =>
    match parseVal fuel cs with
    | some (v, r) =>
      match skipWs r with
      | c :: r2 =>
        if c = ',' then
          match parseElems fuel r2 with
          | some (vs, r3) => some (v :: vs, r3)
          | Option.none => Option.none
        else if c = ']' then some ([v], r2)
        else Option.none
      | [] => Option.none
    | Option.none => Option.none

end

/-- Modelled from the spec: the external parser collaborator on whole texts;
the parsed value must be followed by whitespace only. -/
def jsonLoads (s : String) : Option PyVal :=
  match parseVal (s.data.length + 1) s.data with
  | some (v, rest) => if (skipWs rest).isEmpty then some v else Option.none
  | Option.none => Option.none

theorem skipWs_nil : skipWs [] = [] := rfl

theorem skipWs_cons_not (c : Char) (r : List Char) (h : jsonWs c = false) :
    skipWs (c :: r) = c :: r := by
  simp [skipWs, List.dropWhile_cons, h]

theorem skipWs_append_ws (l r : List Char) (h : ∀ c ∈ l, jsonWs c = true) :
    skipWs (l ++ r) = skipWs r := by
  induction l with
  | nil => rfl
  | cons a t ih =>
    have ha : jsonWs a = true := h a (by simp)
    simp only [List.cons_append, skipWs, List.dropWhile_cons, ha, if_true]
    exact ih (fun c hc => h c (by simp [hc]))

theorem pad_ws (lvl : Nat) : ∀ c ∈ pad lvl, jsonWs c = true := by
  intro c hc
  unfold pad at hc
  rw [List.eq_of_mem_replicate hc]
  rfl

theorem jsonWs_digit_false (c : Char) (h : c.isDigit = true) : jsonWs c = false := by
  unfold jsonWs
  unfold Char.isDigit at h
  simp only [Bool.or_eq_true, decide_eq_true_eq, Bool.and_eq_true] at h ⊢
  simp only [Bool.or_eq_false_iff, decide_eq_false_iff_not]
  refine ⟨⟨⟨?_, ?_⟩, ?_⟩, ?_⟩ <;> rintro rfl <;> revert h <;> decide

theorem hexVal_digitChar (d : Nat) (hd : d < 16) : hexVal (Nat.digitChar d) = some d := by
  interval_cases d <;> decide

theorem parseStrBody_esc :
    ∀ (cs rest : List Char),
      parseStrBody (cs.flatMap jsonEscChar ++ '"' :: rest) = some (cs, rest)
  | [], rest => by
    rw [List.flatMap_nil, List.nil_append, parseStrBody.eq_def]
    rfl
  | c :: t, rest => by
    have ih := parseStrBody_esc t rest
    rw [List.flatMap_cons, List.append_assoc]
    by_cases h1 : c = '"'
    · subst h1
      rw [show jsonEscChar '"' = ['\\', '"'] from rfl, List.cons_append, List.singleton_append,
        parseStrBody.eq_def]
      simp +decide [jsonUnescChar, ih]
    · by_cases h2 : c = '\\'
      · subst h2
        rw [show jsonEscChar '\\' = ['\\', '\\'] from rfl, List.cons_append,
          List.singleton_append, parseStrBody.eq_def]
        simp +decide [jsonUnescChar, ih]
      · by_cases h3 : c = '\n'
        · subst h3
          rw [show jsonEscChar '\n' = ['\\', 'n'] from rfl, List.cons_append,
            List.singleton_append, parseStrBody.eq_def]
          simp +decide [jsonUnescChar, ih]
        · by_cases h4 : c = '\r'
          · subst h4
            rw [show jsonEscChar '\r' = ['\\', 'r'] from rfl, List.cons_append,
              List.singleton_append, parseStrBody.eq_def]
            simp +decide [jsonUnescChar, ih]
          · by_cases h5 : c = '\t'
            · subst h5
              rw [show jsonEscChar '\t' = ['\\', 't'] from rfl, List.cons_append,
                List.singleton_append, parseStrBody.eq_def]
              simp +decide [jsonUnescChar, ih]
            · by_cases h6 : c = '\x08'
              · subst h6
                rw [show jsonEscChar '\x08' = ['\\', 'b'] from rfl, List.cons_append,
                  List.singleton_append, parseStrBody.eq_def]
                simp +decide [jsonUnescChar, ih]
              · by_cases h7 : c = '\x0c'
                · subst h7
                  rw [show jsonEscChar '\x0c' = ['\\', 'f'] from rfl, List.cons_append,
                    List.singleton_append, parseStrBody.eq_def]
                  simp +decide [jsonUnescChar, ih]
                · by_cases h8 : c.toNat < 32
                  · have hesc : jsonEscChar c
                        = ['\\', 'u', '0', '0', Nat.digitChar (c.toNat / 16 % 16),
                           Nat.digitChar (c.toNat % 16)] := by
                      simp [jsonEscChar, h1, h2, h3, h4, h5, h6, h7, h8]
                    have hd1 : c.toNat / 16 % 16 < 16 := Nat.mod_lt _ (by omega)
                    have hd2 : c.toNat % 16 < 16 := Nat.mod_lt _ (by omega)
                    have hv : 16 * (c.toNat / 16 % 16) + c.toNat % 16 = c.toNat := by omega
                    rw [hesc, List.cons_append, List.cons_append, List.cons_append,
                      List.cons_append, List.cons_append, List.singleton_append,
                      parseStrBody.eq_def]
                    simp +decide [hexVal_digitChar _ hd1, hexVal_digitChar _ hd2, ih, hv,
                      Char.ofNat_toNat, show hexVal '0' = some 0 from rfl]
                  · have hesc : jsonEscChar c = [c] := by
                      simp [jsonEscChar, h1, h2, h3, h4, h5, h6, h7, h8]
                    rw [hesc, List.singleton_append, parseStrBody.eq_def]
                    simp [h1, h2, ih]

mutual

def sizeV : PyVal → Nat
  | .none => 1
  | .bool _ => 1
  | .int _ => 1
  | .str _ => 1
  | .list xs => 1 + sizeL xs
  | .dict kvs => 1 + sizeD kvs

def sizeL : List PyVal → Nat
  | [] => 0
  | x :: t => 1 + sizeV x + sizeL t

def sizeD : Obj → Nat
  | [] => 0
  | (_, v) :: t => 1 + sizeV v + sizeD t

end

theorem sizeV_pos (v : PyVal) : 1 ≤ sizeV v := by
  cases v <;> simp [sizeV]

theorem sizeL_pos (x : PyVal) (t : List PyVal) : 1 ≤ sizeL (x :: t) := by
  simp only [sizeL]
  omega

theorem sizeD_pos (kv : String × PyVal) (t : Obj) : 1 ≤ sizeD (kv :: t) := by
  obtain ⟨k, v⟩ := kv
  simp only [sizeD]
  omega

theorem natChars_head_digit (n : Nat) :
    ∃ c cs, natChars n = c :: cs ∧ c.isDigit = true := by
  cases hd : natChars n with
  | nil => exact absurd hd (natChars_ne_nil n)
  | cons c cs =>
    refine ⟨c, cs, rfl, ?_⟩
    have : c ∈ natChars n := by
      rw [hd]
      simp
    exact natChars_all_digit n c this

theorem digit_head_props (c : Char) (h : c.isDigit = true) :
    jsonWs c = false ∧ c ≠ ']' ∧ c ≠ '\x7d' ∧ c ≠ '\x7b' ∧ c ≠ '[' ∧ c ≠ '"'
    ∧ c ≠ 'n' ∧ c ≠ 't' ∧ c ≠ 'f' ∧ c ≠ '-' := by
  refine ⟨jsonWs_digit_false c h, ?_, ?_, ?_, ?_, ?_, ?_, ?_, ?_, ?_⟩ <;>
    (rintro rfl; revert h; decide)

mutual

theorem sizeV_le : ∀ (v : PyVal) (lvl : Nat), sizeV v ≤ (dumpV lvl v).length
  | .none, lvl => by simp [sizeV, dumpV]
  | .bool b, lvl => by cases b <;> simp [sizeV, dumpV]
  | .int n, lvl => by
    have h : intChars n ≠ [] := by
      cases n with
      | ofNat m => exact natChars_ne_nil m
      | negSucc m => simp [intChars]
    have : 1 ≤ (intChars n).length := by
      cases hc : intChars n with
      | nil => exact absurd hc h
      | cons a t => simp
    simpa [sizeV, dumpV] using this
  | .str s, lvl => by
    simp [sizeV, dumpV, qstr]
  | .list [], lvl => by simp [sizeV, sizeL, dumpV]
  | .list (x :: xs), lvl => by
    have h := sizeL_le (x :: xs) lvl
    simp only [sizeV, dumpV, List.length_cons, List.length_append, pad,
      List.length_replicate] at h ⊢
    omega
  | .dict [], lvl => by simp [sizeV, sizeD, dumpV]
  | .dict (kv :: kvs), lvl => by
    have h := sizeD_le (kv :: kvs) lvl
    simp only [sizeV, dumpV, List.length_cons, List.length_append, pad,
      List.length_replicate] at h ⊢
    omega

theorem sizeL_le : ∀ (xs : List PyVal) (lvl : Nat), sizeL xs ≤ (dumpElems (lvl + 1) xs).length
  | [], lvl => by simp [sizeL, dumpElems]
  | [x], lvl => by
    have h := sizeV_le x (lvl + 1)
    simp only [sizeL, dumpElems, List.length_append, pad, List.length_replicate] at h ⊢
    omega
  | x :: y :: ys, lvl => by
    have h1 := sizeV_le x (lvl + 1)
    have h2 := sizeL_le (y :: ys) lvl
    simp only [sizeL, dumpElems, List.length_append, List.length_cons, pad,
      List.length_replicate] at h1 h2 ⊢
    omega

theorem sizeD_le : ∀ (kvs : Obj) (lvl : Nat), sizeD kvs ≤ (dumpMembers (lvl + 1) kvs).length
  | [], lvl => by simp [sizeD, dumpMembers]
  | [(k, v)], lvl => by
    have h := sizeV_le v (lvl + 1)
    simp only [sizeD, dumpMembers, List.length_append, List.length_cons, pad,
      List.length_replicate] at h ⊢
    omega
  | (k, v) :: kv :: kvs, lvl => by
    have h1 := sizeV_le v (lvl + 1)
    have h2 := sizeD_le (kv :: kvs) lvl
    simp only [sizeD, dumpMembers, List.length_append, List.length_cons, pad,
      List.length_replicate] at h1 h2 ⊢
    omega

end

theorem dumpV_head (lvl : Nat) (v : PyVal) :
    ∃ c cs, dumpV lvl v = c :: cs ∧ jsonWs c = false ∧ c ≠ ']' ∧ c ≠ '\x7d' := by
  cases v with
  | none => exact ⟨'n', _, rfl, by decide, by decide, by decide⟩
  | bool b =>
    cases b
    · exact ⟨'f', _, rfl, by decide, by decide, by decide⟩
    · exact ⟨'t', _, rfl, by decide, by decide, by decide⟩
  | int n =>
    cases n with
    | ofNat m =>
      obtain ⟨c, cs, hc, hdig⟩ := natChars_head_digit m
      have hp := digit_head_props c hdig
      exact ⟨c, cs, by simp [dumpV, intChars, hc], hp.1, hp.2.1, hp.2.2.1⟩
    | negSucc m =>
      exact ⟨'-', natChars (m + 1), rfl, by decide, by decide, by decide⟩
  | str s => exact ⟨'"', _, rfl, by decide, by decide, by decide⟩
  | list xs =>
    cases xs
    · exact ⟨'[', _, rfl, by decide, by decide, by decide⟩
    · exact ⟨'[', _, rfl, by decide, by decide, by decide⟩
  | dict kvs =>
    cases kvs
    · exact ⟨'\x7b', _, rfl, by decide, by decide, by decide⟩
    · exact ⟨'\x7b', _, rfl, by decide, by decide, by decide⟩

theorem parseVal_succ (fuel : Nat) (cs : List Char) :
    parseVal (fuel + 1) cs
      = match skipWs cs with
        | [] => Option.none
        | c :: r =>
          if c = '\x7b' then parseObjRest fuel r
          else if c = '[' then parseArrRest fuel r
          else if c = '"' then
            match parseStrBody r with
            | some (cs2, r2) => some (.str (String.mk cs2), r2)
            | Option.none => Option.none
          else if c = 'n' then
            match r with
            | 'u' :: 'l' :: 'l' :: r2 => some (.none, r2)
            | _ => Option.none
          else if c = 't' then
            match r with
            | 'r' :: 'u' :: 'e' :: r2 => some (.bool true, r2)
            | _ => Option.none
          else if c = 'f' then
            match r with
            | 'a' :: 'l' :: 's' :: 'e' :: r2 => some (.bool false, r2)
            | _ => Option.none
          else if c = '-' then
            if (r.takeWhile Char.isDigit).isEmpty then Option.none
            else some (.int (-(digitsToNat (r.takeWhile Char.isDigit) : Int)),
              r.dropWhile Char.isDigit)
          else if c.isDigit then
            some (.int (digitsToNat ((c :: r).takeWhile Char.isDigit) : Int),
              (c :: r).dropWhile Char.isDigit)
          else Option.none := by
  rw [parseVal.eq_def]


theorem parseMembers_succ (fuel : Nat) (cs : List Char) :
    parseMembers (fuel + 1) cs
      = match skipWs cs with
        | [] => Option.none
        | c :: r =>
          if c = '"' then
            match parseStrBody r with
            | some (kcs, r2) =>
              match skipWs r2 with
              | c2 :: r3 =>
                if c2 = ':' then
                  match parseVal fuel r3 with
                  | some (v, r4) =>
                    match skipWs r4 with
                    | c3 :: r5 =>
                      if c3 = ',' then
                        match parseMembers fuel r5 with
                        | some (kvs, r6) => some ((String.mk kcs, v) :: kvs, r6)
                        | Option.none => Option.none
                      else if c3 = '\x7d' then some ([(String.mk kcs, v)], r5)
                      else Option.none
                    | [] => Option.none
                  | Option.none => Option.none
                else Option.none
              | [] => Option.none
            | Option.none => Option.none
          else Option.none := by
  rw [parseMembers.eq_def]

theorem parseElems_succ (fuel : Nat) (cs : List Char) :
    parseElems (fuel + 1) cs
      = match parseVal fuel cs with
        | some (v, r) =>
          match skipWs r with
          | c :: r2 =>
            if c = ',' then
              match parseElems fuel r2 with
              | some (vs, r3) => some (v :: vs, r3)
              | Option.none => Option.none
            else if c = ']' then some ([v], r2)
            else Option.none
          | [] => Option.none
        | Option.none => Option.none := by
  rw [parseElems.eq_def]

theorem allWs_append (l1 l2 : List Char) (h1 : ∀ c ∈ l1, jsonWs c = true)
    (h2 : ∀ c ∈ l2, jsonWs c = true) : ∀ c ∈ l1 ++ l2, jsonWs c = true := by
  intro c hc
  rcases List.mem_append.mp hc with h | h
  · exact h1 c h
  · exact h2 c h

theorem headNotDigit_cons (a : Char) (h : a.isDigit = false) (l : List Char) :
    ∀ c : Char, (a :: l).head? = some c → c.isDigit = false := by
  intro c hc
  simp only [List.head?_cons, Option.some.injEq] at hc
  subst hc
  exact h

theorem parse_dump : ∀ fuel : Nat,
    (∀ (v : PyVal) (lvl : Nat) (ws rest : List Char), sizeV v ≤ fuel →
      (∀ c ∈ ws, jsonWs c = true) →
      (∀ c, rest.head? = some c → c.isDigit = false) →
      parseVal fuel (ws ++ (dumpV lvl v ++ rest)) = some (v, rest))
    ∧ (∀ (xs : List PyVal) (lvl : Nat) (ws1 ws2 rest : List Char), sizeL xs ≤ fuel → xs ≠ [] →
      (∀ c ∈ ws1, jsonWs c = true) → (∀ c ∈ ws2, jsonWs c = true) →
      parseElems fuel (ws1 ++ (dumpElems lvl xs ++ ('\n' :: (ws2 ++ (']' :: rest)))))
        = some (xs, rest))
    ∧ (∀ (kvs : Obj) (lvl : Nat) (ws1 ws2 rest : List Char), sizeD kvs ≤ fuel → kvs ≠ [] →
      (∀ c ∈ ws1, jsonWs c = true) → (∀ c ∈ ws2, jsonWs c = true) →
      parseMembers fuel (ws1 ++ (dumpMembers lvl kvs ++ ('\n' :: (ws2 ++ ('\x7d' :: rest)))))
        = some (kvs, rest)) := by
  intro fuel
  induction fuel with
  | zero =>
    refine ⟨?_, ?_, ?_⟩
    · intro v _ _ _ hsize _ _
      have := sizeV_pos v
      omega
    · intro xs _ _ _ _ hsize hne _ _
      cases xs with
      | nil => exact absurd rfl hne
      | cons x t =>
        have := sizeL_pos x t
        omega
    · intro kvs _ _ _ _ hsize hne _ _
      cases kvs with
      | nil => exact absurd rfl hne
      | cons kv t =>
        have := sizeD_pos kv t
        omega
  | succ fuel ih =>
    obtain ⟨ihV, ihE, ihM⟩ := ih
    refine ⟨?_, ?_, ?_⟩
    · intro v lvl ws rest hsize hws hrest
      cases v with
      | none =>
        rw [show dumpV lvl PyVal.none ++ rest = 'n' :: 'u' :: 'l' :: 'l' :: rest from rfl]
        rw [parseVal_succ, skipWs_append_ws ws _ hws, skipWs_cons_not _ _ (by decide)]
        simp +decide
      | bool b =>
        cases b
        · rw [show dumpV lvl (PyVal.bool false) ++ rest
              = 'f' :: 'a' :: 'l' :: 's' :: 'e' :: rest from rfl]
          rw [parseVal_succ, skipWs_append_ws ws _ hws, skipWs_cons_not _ _ (by decide)]
          simp +decide
        · rw [show dumpV lvl (PyVal.bool true) ++ rest
              = 't' :: 'r' :: 'u' :: 'e' :: rest from rfl]
          rw [parseVal_succ, skipWs_append_ws ws _ hws, skipWs_cons_not _ _ (by decide)]
          simp +decide
      | int n =>
        cases n with
        | ofNat m =>
          obtain ⟨c, cs, hc, hdig⟩ := natChars_head_digit m
          obtain ⟨hwsc, hne1, hne2, hne3, hne4, hne5, hne6, hne7, hne8, hne9⟩ :=
            digit_head_props c hdig
          have hall : ∀ a ∈ c :: cs, a.isDigit = true := by
            rw [← hc]
            exact natChars_all_digit m
          have htk := takeWhile_append_all Char.isDigit (c :: cs) rest hall hrest
          rw [show dumpV lvl (PyVal.int (Int.ofNat m)) = natChars m from rfl, hc]
          rw [show (c :: cs) ++ rest = c :: (cs ++ rest) from rfl]
          rw [parseVal_succ, skipWs_append_ws ws _ hws, skipWs_cons_not _ _ hwsc]
          dsimp only
          rw [if_neg hne3, if_neg hne4, if_neg hne5, if_neg hne6, if_neg hne7, if_neg hne8,
            if_neg hne9, if_pos hdig]
          rw [show c :: (cs ++ rest) = (c :: cs) ++ rest from rfl, htk.1, htk.2]
          rw [← hc, digitsToNat_natChars]
          rfl
        | negSucc m =>
          have hall := natChars_all_digit (m + 1)
          have htk := takeWhile_append_all Char.isDigit (natChars (m + 1)) rest hall hrest
          have hne : (natChars (m + 1)).isEmpty = false := by
            cases hd : natChars (m + 1) with
            | nil => exact absurd hd (natChars_ne_nil (m + 1))
            | cons a l => rfl
          rw [show dumpV lvl (PyVal.int (Int.negSucc m)) = '-' :: natChars (m + 1) from rfl]
          rw [show ('-' :: natChars (m + 1)) ++ rest = '-' :: (natChars (m + 1) ++ rest)
            from rfl]
          rw [parseVal_succ, skipWs_append_ws ws _ hws, skipWs_cons_not _ _ (by decide)]
          dsimp only
          rw [if_neg (by decide), if_neg (by decide), if_neg (by decide), if_neg (by decide),
            if_neg (by decide), if_neg (by decide), if_pos rfl]
          rw [htk.1, htk.2, hne, digitsToNat_natChars]
          norm_num
          rw [Int.negSucc_eq]
          ring
        
      | str s =>
        rw [show dumpV lvl (PyVal.str s) ++ rest
            = '"' :: (s.data.flatMap jsonEscChar ++ ('"' :: rest)) from by
          simp [dumpV, qstr]]
        rw [parseVal_succ, skipWs_append_ws ws _ hws, skipWs_cons_not _ _ (by decide)]
        dsimp only
        rw [if_neg (by decide), if_neg (by decide), if_pos rfl, parseStrBody_esc]
      | list xs =>
        cases xs with
        | nil =>
          rw [show dumpV lvl (PyVal.list []) ++ rest = '[' :: (']' :: rest) from rfl]
          rw [parseVal_succ, skipWs_append_ws ws _ hws, skipWs_cons_not _ _ (by decide)]
          dsimp only
          rw [if_neg (by decide), if_pos rfl, parseArrRest.eq_def]
          dsimp only
          rw [skipWs_cons_not _ _ (by decide)]
          dsimp only
          rw [if_pos rfl]
        | cons x t =>
          obtain ⟨c, cs, hc, hwsc, hcr, hcb⟩ := dumpV_head (lvl + 1) x
          have hsize2 : sizeL (x :: t) ≤ fuel := by
            simp only [sizeV] at hsize
            omega
          have hE := ihE (x :: t) (lvl + 1) ['\n'] (pad lvl) rest hsize2 (by simp)
            (by intro a ha; simp at ha; subst ha; rfl) (pad_ws lvl)
          rw [show dumpV lvl (PyVal.list (x :: t)) ++ rest
              = '[' :: ('\n' :: (dumpElems (lvl + 1) (x :: t)
                ++ ('\n' :: (pad lvl ++ (']' :: rest))))) from by
            simp [dumpV, List.append_assoc]]
          rw [parseVal_succ, skipWs_append_ws ws _ hws, skipWs_cons_not _ _ (by decide)]
          dsimp only
          rw [if_neg (by decide), if_pos rfl, parseArrRest.eq_def]
          dsimp only
          have hskip : skipWs ('\n' :: (dumpElems (lvl + 1) (x :: t)
              ++ ('\n' :: (pad lvl ++ (']' :: rest)))))
              = c :: (cs ++ ((if t.isEmpty then ([] : List Char)
                  else ',' :: '\n' :: dumpElems (lvl + 1) t)
                ++ ('\n' :: (pad lvl ++ (']' :: rest))))) := by
            cases t with
            | nil =>
              rw [show dumpElems (lvl + 1) [x] = pad (lvl + 1) ++ dumpV (lvl + 1) x from rfl,
                hc]
              rw [show ('\n' :: ((pad (lvl + 1) ++ (c :: cs))
                  ++ ('\n' :: (pad lvl ++ (']' :: rest)))))
                = ('\n' :: pad (lvl + 1))
                  ++ ((c :: cs) ++ ('\n' :: (pad lvl ++ (']' :: rest)))) from by
                simp [List.append_assoc]]
              rw [skipWs_append_ws _ _ (by
                intro a ha
                rcases List.mem_cons.mp ha with rfl | ha
                · rfl
                · exact pad_ws (lvl + 1) a ha)]
              rw [show ((c :: cs) ++ ('\n' :: (pad lvl ++ (']' :: rest))))
                = c :: (cs ++ ('\n' :: (pad lvl ++ (']' :: rest)))) from rfl]
              rw [skipWs_cons_not _ _ hwsc]
              simp
            | cons y ys =>
              rw [show dumpElems (lvl + 1) (x :: y :: ys)
                = pad (lvl + 1) ++ dumpV (lvl + 1) x
                  ++ ',' :: '\n' :: dumpElems (lvl + 1) (y :: ys) from rfl, hc]
              rw [show ('\n' :: ((pad (lvl + 1) ++ (c :: cs)
                    ++ ',' :: '\n' :: dumpElems (lvl + 1) (y :: ys))
                  ++ ('\n' :: (pad lvl ++ (']' :: rest)))))
                = ('\n' :: pad (lvl + 1))
                  ++ (c :: (cs ++ ((',' :: '\n' :: dumpElems (lvl + 1) (y :: ys))
                    ++ ('\n' :: (pad lvl ++ (']' :: rest)))))) from by
                simp [List.append_assoc]]
              rw [skipWs_append_ws _ _ (by
                intro a ha
                rcases List.mem_cons.mp ha with rfl | ha
                · rfl
                · exact pad_ws (lvl + 1) a ha)]
              rw [skipWs_cons_not _ _ hwsc]
              simp [List.append_assoc]
          simp only [hskip]
          rw [if_neg hcr]
          have harg : ('\n' :: (dumpElems (lvl + 1) (x :: t)
              ++ ('\n' :: (pad lvl ++ (']' :: rest)))))
              = ['\n'] ++ (dumpElems (lvl + 1) (x :: t)
                ++ ('\n' :: (pad lvl ++ (']' :: rest)))) := rfl
          rw [harg, hE]
      | dict kvs =>
        cases kvs with
        | nil =>
          rw [show dumpV lvl (PyVal.dict []) ++ rest = '\x7b' :: ('\x7d' :: rest) from rfl]
          rw [parseVal_succ, skipWs_append_ws ws _ hws, skipWs_cons_not _ _ (by decide)]
          dsimp only
          rw [if_pos rfl, parseObjRest.eq_def]
          dsimp only
          rw [skipWs_cons_not _ _ (by decide)]
          dsimp only
          rw [if_pos rfl]
        | cons kv t =>
          obtain ⟨k, v⟩ := kv
          have hsize2 : sizeD ((k, v) :: t) ≤ fuel := by
            simp only [sizeV] at hsize
            omega
          have hM := ihM ((k, v) :: t) (lvl + 1) ['\n'] (pad lvl) rest hsize2 (by simp)
            (by intro a ha; simp at ha; subst ha; rfl) (pad_ws lvl)
          rw [show dumpV lvl (PyVal.dict ((k, v) :: t)) ++ rest
              = '\x7b' :: ('\n' :: (dumpMembers (lvl + 1) ((k, v) :: t)
                ++ ('\n' :: (pad lvl ++ ('\x7d' :: rest))))) from by
            simp [dumpV, List.append_assoc]]
          rw [parseVal_succ, skipWs_append_ws ws _ hws, skipWs_cons_not _ _ (by decide)]
          dsimp only
          rw [if_pos rfl, parseObjRest.eq_def]
          dsimp only
          have hskip : skipWs ('\n' :: (dumpMembers (lvl + 1) ((k, v) :: t)
              ++ ('\n' :: (pad lvl ++ ('\x7d' :: rest)))))
              = '"' :: ((k.data.flatMap jsonEscChar ++ ['"'])
                ++ ((':' :: ' ' :: dumpV (lvl + 1) v
                    ++ (if t.isEmpty then ([] : List Char)
                        else ',' :: '\n' :: dumpMembers (lvl + 1) t))
                  ++ ('\n' :: (pad lvl ++ ('\x7d' :: rest))))) := by
            cases t with
            | nil =>
              rw [show dumpMembers (lvl + 1) [(k, v)]
                = pad (lvl + 1) ++ (qstr k ++ ':' :: ' ' :: dumpV (lvl + 1) v) from rfl]
              rw [show qstr k = '"' :: (k.data.flatMap jsonEscChar ++ ['"']) from rfl]
              rw [show ('\n' :: ((pad (lvl + 1)
                    ++ ('"' :: (k.data.flatMap jsonEscChar ++ ['"'])
                      ++ ':' :: ' ' :: dumpV (lvl + 1) v))
                  ++ ('\n' :: (pad lvl ++ ('\x7d' :: rest)))))
                = ('\n' :: pad (lvl + 1))
                  ++ ('"' :: ((k.data.flatMap jsonEscChar ++ ['"'])
                    ++ ((':' :: ' ' :: dumpV (lvl + 1) v ++ ([] : List Char))
                      ++ ('\n' :: (pad lvl ++ ('\x7d' :: rest)))))) from by
                simp [List.append_assoc]]
              rw [skipWs_append_ws _ _ (by
                intro a ha
                rcases List.mem_cons.mp ha with rfl | ha
                · rfl
                · exact pad_ws (lvl + 1) a ha)]
              rw [skipWs_cons_not _ _ (by decide)]
              simp
            | cons p t' =>
              rw [show dumpMembers (lvl + 1) ((k, v) :: p :: t')
                = pad (lvl + 1) ++ (qstr k ++ ':' :: ' ' :: dumpV (lvl + 1) v)
                  ++ ',' :: '\n' :: dumpMembers (lvl + 1) (p :: t') from rfl]
              rw [show qstr k = '"' :: (k.data.flatMap jsonEscChar ++ ['"']) from rfl]
              rw [show ('\n' :: ((pad (lvl + 1)
                    ++ ('"' :: (k.data.flatMap jsonEscChar ++ ['"'])
                      ++ ':' :: ' ' :: dumpV (lvl + 1) v)
                    ++ ',' :: '\n' :: dumpMembers (lvl + 1) (p :: t'))
                  ++ ('\n' :: (pad lvl ++ ('\x7d' :: rest)))))
                = ('\n' :: pad (lvl + 1))
                  ++ ('"' :: ((k.data.flatMap jsonEscChar ++ ['"'])
                    ++ ((':' :: ' ' :: dumpV (lvl + 1) v
                        ++ (',' :: '\n' :: dumpMembers (lvl + 1) (p :: t')))
                      ++ ('\n' :: (pad lvl ++ ('\x7d' :: rest)))))) from by
                simp [List.append_assoc]]
              rw [skipWs_append_ws _ _ (by
                intro a ha
                rcases List.mem_cons.mp ha with rfl | ha
                · rfl
                · exact pad_ws (lvl + 1) a ha)]
              rw [skipWs_cons_not _ _ (by decide)]
              simp [List.append_assoc]
          simp only [hskip]
          rw [if_neg (by decide)]
          have harg : ('\n' :: (dumpMembers (lvl + 1) ((k, v) :: t)
              ++ ('\n' :: (pad lvl ++ ('\x7d' :: rest)))))
              = ['\n'] ++ (dumpMembers (lvl + 1) ((k, v) :: t)
                ++ ('\n' :: (pad lvl ++ ('\x7d' :: rest)))) := rfl
          rw [harg, hM]
    · intro xs lvl ws1 ws2 rest hsize hne hws1 hws2
      cases xs with
      | nil => exact absurd rfl hne
      | cons x t =>
        rw [parseElems_succ]
        cases t with
        | nil =>
          have hsx : sizeV x ≤ fuel := by
            simp only [sizeL] at hsize
            omega
          have hV := ihV x lvl (ws1 ++ pad lvl) ('\n' :: (ws2 ++ (']' :: rest))) hsx
            (allWs_append ws1 (pad lvl) hws1 (pad_ws lvl))
            (headNotDigit_cons '\n' (by decide) _)
          rw [show ws1 ++ (dumpElems lvl [x] ++ ('\n' :: (ws2 ++ (']' :: rest))))
              = (ws1 ++ pad lvl) ++ (dumpV lvl x ++ ('\n' :: (ws2 ++ (']' :: rest)))) from by
            rw [show dumpElems lvl [x] = pad lvl ++ dumpV lvl x from rfl]
            simp [List.append_assoc]]
          have hsk : skipWs ('\n' :: (ws2 ++ (']' :: rest))) = ']' :: rest := by
            rw [show '\n' :: (ws2 ++ (']' :: rest)) = ('\n' :: ws2) ++ (']' :: rest) from rfl]
            rw [skipWs_append_ws _ _ (by
              intro a ha
              rcases List.mem_cons.mp ha with rfl | ha
              · rfl
              · exact hws2 a ha)]
            exact skipWs_cons_not _ _ (by decide)
          simp only [hV, hsk]
          simp +decide
        | cons y ys =>
          have hsx : sizeV x ≤ fuel := by
            simp only [sizeL] at hsize
            have := sizeL_pos y ys
            omega
          have hsy : sizeL (y :: ys) ≤ fuel := by
            simp only [sizeL] at hsize ⊢
            have := sizeV_pos x
            omega
          have hV := ihV x lvl (ws1 ++ pad lvl)
            (',' :: ('\n' :: (dumpElems lvl (y :: ys)
              ++ ('\n' :: (ws2 ++ (']' :: rest)))))) hsx
            (allWs_append ws1 (pad lvl) hws1 (pad_ws lvl))
            (headNotDigit_cons ',' (by decide) _)
          rw [show ws1 ++ (dumpElems lvl (x :: y :: ys) ++ ('\n' :: (ws2 ++ (']' :: rest))))
              = (ws1 ++ pad lvl) ++ (dumpV lvl x
                ++ (',' :: ('\n' :: (dumpElems lvl (y :: ys)
                  ++ ('\n' :: (ws2 ++ (']' :: rest))))))) from by
            rw [show dumpElems lvl (x :: y :: ys)
              = pad lvl ++ dumpV lvl x ++ ',' :: '\n' :: dumpElems lvl (y :: ys) from rfl]
            simp [List.append_assoc]]
          have hE2 := ihE (y :: ys) lvl ['\n'] ws2 rest hsy (by simp)
            (by intro a ha; simp at ha; subst ha; rfl) hws2
          have hsk : skipWs (',' :: ('\n' :: (dumpElems lvl (y :: ys)
              ++ ('\n' :: (ws2 ++ (']' :: rest))))))
              = ',' :: ('\n' :: (dumpElems lvl (y :: ys)
                ++ ('\n' :: (ws2 ++ (']' :: rest))))) :=
            skipWs_cons_not _ _ (by decide)
          simp only [hV, hsk]
          rw [if_true]
          rw [show '\n' :: (dumpElems lvl (y :: ys) ++ ('\n' :: (ws2 ++ (']' :: rest))))
            = ['\n'] ++ (dumpElems lvl (y :: ys) ++ ('\n' :: (ws2 ++ (']' :: rest))))
            from rfl]
          rw [hE2]
    · intro kvs lvl ws1 ws2 rest hsize hne hws1 hws2
      cases kvs with
      | nil => exact absurd rfl hne
      | cons kv t =>
        obtain ⟨k, v⟩ := kv
        rw [parseMembers_succ]
        cases t with
        | nil =>
          have hsv : sizeV v ≤ fuel := by
            simp only [sizeD] at hsize
            omega
          have hV := ihV v lvl [' '] ('\n' :: (ws2 ++ ('\x7d' :: rest))) hsv (by decide)
            (headNotDigit_cons '\n' (by decide) _)
          have hskipKey : skipWs (ws1 ++ (dumpMembers lvl [(k, v)]
              ++ ('\n' :: (ws2 ++ ('\x7d' :: rest)))))
              = '"' :: (k.data.flatMap jsonEscChar
                ++ ('"' :: (':' :: (' ' :: (dumpV lvl v
                  ++ ('\n' :: (ws2 ++ ('\x7d' :: rest)))))))) := by
            rw [show dumpMembers lvl [(k, v)]
              = pad lvl ++ (qstr k ++ ':' :: ' ' :: dumpV lvl v) from rfl]
            rw [show qstr k = '"' :: (k.data.flatMap jsonEscChar ++ ['"']) from rfl]
            rw [show ws1 ++ ((pad lvl ++ ('"' :: (k.data.flatMap jsonEscChar ++ ['"'])
                  ++ ':' :: ' ' :: dumpV lvl v))
                ++ ('\n' :: (ws2 ++ ('\x7d' :: rest))))
              = (ws1 ++ pad lvl) ++ ('"' :: (k.data.flatMap jsonEscChar
                ++ ('"' :: (':' :: (' ' :: (dumpV lvl v
                  ++ ('\n' :: (ws2 ++ ('\x7d' :: rest))))))))) from by
              simp [List.append_assoc]]
            rw [skipWs_append_ws _ _ (allWs_append ws1 (pad lvl) hws1 (pad_ws lvl))]
            exact skipWs_cons_not _ _ (by decide)
          simp only [hskipKey]
          rw [if_true]
          rw [parseStrBody_esc]
          have hsk3 : skipWs (':' :: (' ' :: (dumpV lvl v
              ++ ('\n' :: (ws2 ++ ('\x7d' :: rest))))))
              = ':' :: (' ' :: (dumpV lvl v ++ ('\n' :: (ws2 ++ ('\x7d' :: rest))))) :=
            skipWs_cons_not _ _ (by decide)
          simp only [hsk3]
          rw [if_true]
          rw [show (' ' :: (dumpV lvl v ++ ('\n' :: (ws2 ++ ('\x7d' :: rest)))))
            = [' '] ++ (dumpV lvl v ++ ('\n' :: (ws2 ++ ('\x7d' :: rest)))) from rfl]
          simp only [hV]
          have hsk4 : skipWs ('\n' :: (ws2 ++ ('\x7d' :: rest))) = '\x7d' :: rest := by
            rw [show '\n' :: (ws2 ++ ('\x7d' :: rest))
              = ('\n' :: ws2) ++ ('\x7d' :: rest) from rfl]
            rw [skipWs_append_ws _ _ (by
              intro a ha
              rcases List.mem_cons.mp ha with rfl | ha
              · rfl
              · exact hws2 a ha)]
            exact skipWs_cons_not _ _ (by decide)
          simp only [hsk4]
          simp +decide
        | cons p t2 =>
          have hsv : sizeV v ≤ fuel := by
            simp only [sizeD] at hsize
            have := sizeD_pos p t2
            omega
          have hst : sizeD (p :: t2) ≤ fuel := by
            simp only [sizeD] at hsize ⊢
            have := sizeV_pos v
            obtain ⟨k2, v2⟩ := p
            simp only [sizeD] at hsize ⊢
            omega
          have hV := ihV v lvl [' ']
            (',' :: ('\n' :: (dumpMembers lvl (p :: t2)
              ++ ('\n' :: (ws2 ++ ('\x7d' :: rest)))))) hsv (by decide)
            (headNotDigit_cons ',' (by decide) _)
          have hM2 := ihM (p :: t2) lvl ['\n'] ws2 rest hst (by simp)
            (by intro a ha; simp at ha; subst ha; rfl) hws2
          have hskipKey : skipWs (ws1 ++ (dumpMembers lvl ((k, v) :: p :: t2)
              ++ ('\n' :: (ws2 ++ ('\x7d' :: rest)))))
              = '"' :: (k.data.flatMap jsonEscChar
                ++ ('"' :: (':' :: (' ' :: (dumpV lvl v
                  ++ (',' :: ('\n' :: (dumpMembers lvl (p :: t2)
                    ++ ('\n' :: (ws2 ++ ('\x7d' :: rest))))))))))) := by
            rw [show dumpMembers lvl ((k, v) :: p :: t2)
              = pad lvl ++ (qstr k ++ ':' :: ' ' :: dumpV lvl v)
                ++ ',' :: '\n' :: dumpMembers lvl (p :: t2) from rfl]
            rw [show qstr k = '"' :: (k.data.flatMap jsonEscChar ++ ['"']) from rfl]
            rw [show ws1 ++ ((pad lvl ++ ('"' :: (k.data.flatMap jsonEscChar ++ ['"'])
                  ++ ':' :: ' ' :: dumpV lvl v)
                  ++ ',' :: '\n' :: dumpMembers lvl (p :: t2))
                ++ ('\n' :: (ws2 ++ ('\x7d' :: rest))))
              = (ws1 ++ pad lvl) ++ ('"' :: (k.data.flatMap jsonEscChar
                ++ ('"' :: (':' :: (' ' :: (dumpV lvl v
                  ++ (',' :: ('\n' :: (dumpMembers lvl (p :: t2)
                    ++ ('\n' :: (ws2 ++ ('\x7d' :: rest)))))))))))) from by
              simp [List.append_assoc]]
            rw [skipWs_append_ws _ _ (allWs_append ws1 (pad lvl) hws1 (pad_ws lvl))]
            exact skipWs_cons_not _ _ (by decide)
          simp only [hskipKey]
          rw [if_true]
          rw [parseStrBody_esc]
          have hsk3 : skipWs (':' :: (' ' :: (dumpV lvl v
              ++ (',' :: ('\n' :: (dumpMembers lvl (p :: t2)
                ++ ('\n' :: (ws2 ++ ('\x7d' :: rest)))))))))
              = ':' :: (' ' :: (dumpV lvl v
                ++ (',' :: ('\n' :: (dumpMembers lvl (p :: t2)
                  ++ ('\n' :: (ws2 ++ ('\x7d' :: rest)))))))) :=
            skipWs_cons_not _ _ (by decide)
          simp only [hsk3]
          rw [if_true]
          rw [show (' ' :: (dumpV lvl v
              ++ (',' :: ('\n' :: (dumpMembers lvl (p :: t2)
                ++ ('\n' :: (ws2 ++ ('\x7d' :: rest))))))))
            = [' '] ++ (dumpV lvl v
              ++ (',' :: ('\n' :: (dumpMembers lvl (p :: t2)
                ++ ('\n' :: (ws2 ++ ('\x7d' :: rest))))))) from rfl]
          simp only [hV]
          have hsk4 : skipWs (',' :: ('\n' :: (dumpMembers lvl (p :: t2)
              ++ ('\n' :: (ws2 ++ ('\x7d' :: rest))))))
              = ',' :: ('\n' :: (dumpMembers lvl (p :: t2)
                ++ ('\n' :: (ws2 ++ ('\x7d' :: rest))))) :=
            skipWs_cons_not _ _ (by decide)
          simp only [hsk4]
          rw [if_true]
          rw [show ('\n' :: (dumpMembers lvl (p :: t2)
              ++ ('\n' :: (ws2 ++ ('\x7d' :: rest)))))
            = ['\n'] ++ (dumpMembers lvl (p :: t2)
              ++ ('\n' :: (ws2 ++ ('\x7d' :: rest)))) from rfl]
          rw [hM2]

/-- The serializer-parser round trip: reparsing a dumped document recovers it
exactly. -/
theorem jsonLoads_jsonDumps (v : PyVal) : jsonLoads (jsonDumps v) = some v := by
  unfold jsonLoads jsonDumps
  rw [show (String.mk (dumpV 0 v)).data = dumpV 0 v from rfl]
  have h := (parse_dump ((dumpV 0 v).length + 1)).1 v 0 [] []
    (le_trans (sizeV_le v 0) (Nat.le_succ _)) (by simp) (by simp)
  rw [List.nil_append, List.append_nil] at h
  rw [h]
  rfl

theorem strAppend_assoc (a b c : String) : a ++ b ++ c = a ++ (b ++ c) := by
  apply String.ext
  simp [String.data_append, List.append_assoc]

theorem intercalate_go_extract :
    ∀ (xs : List String) (acc b : String),
      String.intercalate.go (acc ++ b) "\n" xs = acc ++ String.intercalate.go b "\n" xs
  | [], acc, b => rfl
  | x :: xs, acc, b => by
    rw [show String.intercalate.go (acc ++ b) "\n" (x :: xs)
      = String.intercalate.go (acc ++ b ++ "\n" ++ x) "\n" xs from rfl]
    rw [show String.intercalate.go b "\n" (x :: xs)
      = String.intercalate.go (b ++ "\n" ++ x) "\n" xs from rfl]
    rw [show acc ++ b ++ "\n" ++ x = acc ++ (b ++ "\n" ++ x) from by
      apply String.ext
      simp [String.data_append, List.append_assoc]]
    exact intercalate_go_extract xs acc (b ++ "\n" ++ x)

theorem intercalate_cons (a x : String) (xs : List String) :
    String.intercalate "\n" (a :: x :: xs) = a ++ ("\n" ++ String.intercalate "\n" (x :: xs)) := by
  rw [show String.intercalate "\n" (a :: x :: xs)
    = String.intercalate.go a "\n" (x :: xs) from rfl]
  rw [show String.intercalate "\n" (x :: xs) = String.intercalate.go x "\n" (x :: xs).tail from rfl]
  rw [show String.intercalate.go a "\n" (x :: xs)
    = String.intercalate.go (a ++ "\n" ++ x) "\n" xs from rfl]
  rw [show (a ++ "\n" ++ x) = (a ++ "\n") ++ x from rfl]
  rw [intercalate_go_extract xs (a ++ "\n") x]
  rw [strAppend_assoc]
  rfl

theorem intercalate_suffix :
    ∀ (l1 : List String) (x : String) (l2 : List String),
      ∃ p : String, String.intercalate "\n" (l1 ++ (x :: l2))
        = p ++ String.intercalate "\n" (x :: l2)
  | [], x, l2 => ⟨"", by
      apply String.ext
      simp [String.data_append]⟩
  | a :: t, x, l2 => by
    obtain ⟨p, hp⟩ := intercalate_suffix t x l2
    refine ⟨a ++ ("\n" ++ p), ?_⟩
    rw [show (a :: t) ++ (x :: l2) = a :: (t ++ (x :: l2)) from rfl]
    cases ht : t ++ (x :: l2) with
    | nil => exact absurd ht (by simp)
    | cons y ys =>
      rw [intercalate_cons, ← ht, hp, strAppend_assoc, strAppend_assoc]

theorem pyRstrip_eq_self (s : String) (c : Char) (hl : s.data.getLast? = some c)
    (hc : isPySpace c = false) : pyRstrip s = s := by
  unfold pyRstrip
  have hrev : s.data.reverse.head? = some c := by
    rw [List.head?_reverse]
    exact hl
  cases hd : s.data.reverse with
  | nil =>
    rw [hd] at hrev
    exact absurd hrev (by simp)
  | cons a l =>
    rw [hd] at hrev
    simp only [List.head?_cons, Option.some.injEq] at hrev
    subst hrev
    have hdw : (a :: l).dropWhile isPySpace = a :: l :=
      List.dropWhile_cons_of_neg (by simp [hc])
    rw [hdw, ← hd, List.reverse_reverse]

theorem requireObject_ok (bundle : PyVal) (d : Obj) (h : _require_object bundle = .ok d) :
    bundle = .dict d := by
  cases bundle
  case dict kvs =>
    simp only [_require_object] at h
    split_ifs at h
    all_goals simp_all
  all_goals simp [_require_object] at h

/-- A shape-valid bundle whose single issue carries the unhashable `type`
value `{}`. -/
def bundleC7X : Obj :=
  [("meta", .dict []), ("epics", .list []),
   ("issues", .list [.dict [("id", .str "US-1"), ("type", .dict [])]])]

/-- C7 counterexample.  The claim asserts, for every bundle passing the shape
check, an output ending with the fenced block of the dumped document; on the
shape-valid `bundleC7X` rendering with embedding requested raises `TypeError`
at `TYPE_DISPLAY.get` on the unhashable dict-valued `type`, so no output and
no embedded block exist. -/
theorem c7_embed_roundtrip_counterexample :
    _require_object (.dict bundleC7X) = .ok bundleC7X
    ∧ render_issue_bundle_markdown (.dict bundleC7X) true
      = .error "TypeError: unhashable type: \x27dict\x27" := by
  refine ⟨rfl, rfl⟩

/-- C7 amended.  With embedding requested on a bundle passing the shape check
none of whose mapping-shaped issues carries an unhashable (list or mapping)
`type` value, the input is the dict of entries `d`, the rendered text ends
with the fenced block holding `json.dumps` of the document followed by the
closing fence and the final newline, and reparsing the dumped document yields
a value structurally equal to the original input (the round trip holds for
all documents). -/
theorem c7_embed_roundtrip_amended (bundle : PyVal) (d : Obj)
    (h : _require_object bundle = .ok d)
    (hall : ∀ i ∈ ((asList (pyGet d "issues")).filter isDictB).map asDict, typeOkB i = true) :
    bundle = .dict d
    ∧ (∃ t q : String,
        render_issue_bundle_markdown bundle true = .ok t
        ∧ t = q ++ ("\n```json\n" ++ (jsonDumps (.dict d) ++ "\n```\n")))
    ∧ jsonLoads (jsonDumps bundle) = some bundle := by
  have hb := requireObject_ok bundle d h
  refine ⟨hb, ?_, jsonLoads_jsonDumps bundle⟩
  have hrender : render_issue_bundle_markdown bundle true
      = .ok (pyRstrip (String.intercalate "\n" (renderLinesL d true)) ++ "\n") :=
    render_ok bundle d true h hall
  have hlines : renderLinesL d true
      = (["# Issue Bundle — "
            ++ (match pyGet (asDict (pyGet d "meta")) "project" with
                | .str s => s
                | _ => "TBD"), ""]
          ++ _render_meta (asDict (pyGet d "meta"))
          ++ _render_epics (asList (pyGet d "epics"))
          ++ summaryTableL
              (sortByKey issueKey (((asList (pyGet d "issues")).filter isDictB).map asDict))
          ++ detailsSectionL (epicById (asList (pyGet d "epics")))
              (sortByKey issueKey (((asList (pyGet d "issues")).filter isDictB).map asDict)))
        ++ ("" :: ["## Issue Bundle (JSON)", "", "```json", jsonDumps (.dict d), "```"]) := by
    simp [renderLinesL, List.append_assoc]
  obtain ⟨p, hp⟩ := intercalate_suffix
    (["# Issue Bundle — "
        ++ (match pyGet (asDict (pyGet d "meta")) "project" with
            | .str s => s
            | _ => "TBD"), ""]
      ++ _render_meta (asDict (pyGet d "meta"))
      ++ _render_epics (asList (pyGet d "epics"))
      ++ summaryTableL
          (sortByKey issueKey (((asList (pyGet d "issues")).filter isDictB).map asDict))
      ++ detailsSectionL (epicById (asList (pyGet d "epics")))
          (sortByKey issueKey (((asList (pyGet d "issues")).filter isDictB).map asDict)))
    "" ["## Issue Bundle (JSON)", "", "```json", jsonDumps (.dict d), "```"]
  have htail : String.intercalate "\n"
      ("" :: ["## Issue Bundle (JSON)", "", "```json", jsonDumps (.dict d), "```"])
      = "\n## Issue Bundle (JSON)\n\n```json\n" ++ (jsonDumps (.dict d) ++ "\n```") := by
    apply String.ext
    simp [String.intercalate, String.intercalate.go, String.data_append, List.append_assoc]
  have hjoin : String.intercalate "\n" (renderLinesL d true)
      = p ++ ("\n## Issue Bundle (JSON)\n\n```json\n" ++ (jsonDumps (.dict d) ++ "\n```")) := by
    rw [hlines, hp, htail]
  have hlast : (p ++ ("\n## Issue Bundle (JSON)\n\n```json\n"
      ++ (jsonDumps (.dict d) ++ "\n```"))).data.getLast? = some '`' := by
    simp only [String.data_append, List.getLast?_append]
    rfl
  refine ⟨pyRstrip (String.intercalate "\n" (renderLinesL d true)) ++ "\n",
    p ++ "\n## Issue Bundle (JSON)\n", hrender, ?_⟩
  rw [hjoin, pyRstrip_eq_self _ '`' hlast (by decide)]
  apply String.ext
  simp [String.data_append, List.append_assoc]

/-- Witness for C7 amended at a concrete minimal bundle. -/
theorem c7_embed_roundtrip_amended_witness :
    PyVal.dict [("meta", PyVal.dict []), ("epics", PyVal.list []), ("issues", PyVal.list [])]
      = PyVal.dict [("meta", PyVal.dict []), ("epics", PyVal.list []), ("issues", PyVal.list [])]
    ∧ (∃ t q : String,
        render_issue_bundle_markdown
          (.dict [("meta", PyVal.dict []), ("epics", PyVal.list []), ("issues", PyVal.list [])])
          true = .ok t
        ∧ t = q ++ ("\n```json\n"
            ++ (jsonDumps (.dict [("meta", PyVal.dict []), ("epics", PyVal.list []),
                  ("issues", PyVal.list [])]) ++ "\n```\n")))
    ∧ jsonLoads (jsonDumps
          (.dict [("meta", PyVal.dict []), ("epics", PyVal.list []), ("issues", PyVal.list [])]))
        = some (.dict [("meta", PyVal.dict []), ("epics", PyVal.list []),
            ("issues", PyVal.list [])]) :=
  c7_embed_roundtrip_amended
    (.dict [("meta", PyVal.dict []), ("epics", PyVal.list []), ("issues", PyVal.list [])])
    [("meta", PyVal.dict []), ("epics", PyVal.list []), ("issues", PyVal.list [])] rfl
    (by decide)
